import Mathlib

/-!
# Room registry and signaling dispatcher of `src/server/main.go`

A shallow embedding of the JSON-RPC dispatcher `Server.Handle` and of the
operations `NewServer`, `createRoom` and `joinRoom` it is built on.

Modelling conventions.

* One call of `Handle` is one step: the development is about sequences of
  requests, so the mutexes of the source do not appear.
* A Go `map[string]T` is an association list with the operations `mapGet`
  (`m[k]`), `mapSet` (`m[k] = v`, also used for a mutation made through the
  pointer stored under `k`) and `mapDelete` (`delete(m, k)`). A `range` over
  a map visits the entries in list order; Go leaves that order unspecified, so
  statements about notifications speak of membership, not of order.
* A `*jsonrpc2.Conn` is a connection number.
* `json.Unmarshal` belongs to the standard library: a request carries the
  outcome of decoding its parameters at the type the method's branch uses
  (`Decoded`), or the fact that `req.Params` is the nil pointer.
* `time.Now()` is an argument of `Handle`.
* Replies and notifications are collected, in program order, in a list of
  `Effect`s. A run-time panic is the `Except.error` result.
-/

namespace SignalServer

/-! ## Go maps -/

/-- The Go expression `v, exists := m[k]`. -/
def mapGet {α : Type} : List (String × α) → String → Option α
  | [], _ => none
  | (k', v) :: m, k => if k' = k then some v else mapGet m k

/-- The Go statement `m[k] = v`: the value stored under `k` is replaced, or a
new entry is added when the key is absent. -/
def mapSet {α : Type} : List (String × α) → String → α → List (String × α)
  | [], k, v => [(k, v)]
  | (k', v') :: m, k, v => if k' = k then (k, v) :: m else (k', v') :: mapSet m k v

/-- The Go statement `delete(m, k)`. -/
def mapDelete {α : Type} (m : List (String × α)) (k : String) : List (String × α) :=
  m.filter (fun e => decide (e.1 ≠ k))

/-! ## Go strings -/

/-- The Go expression `len(s)`: the number of bytes of the UTF-8 encoding. -/
def goLen (s : String) : Nat :=
  (s.data.map Char.utf8Size).sum

/-- The characters making up exactly the first `n` bytes, when the cut falls on
a character boundary. -/
def takeBytes : Nat → List Char → Option (List Char)
  | 0, _ => some []
  | _ + 1, [] => none
  | n + 1, c :: cs =>
    if c.utf8Size ≤ n + 1 then (takeBytes (n + 1 - c.utf8Size) cs).map (fun r => c :: r)
    else none

/-! ## Data model -/

deriving instance DecidableEq for Except

/-- Run-time panics of the Go program. -/
inductive Fault where
  | nilDereference
  | sliceBounds
  deriving DecidableEq

structure Participant where
  PeerID : String
  Nickname : String
  Session : Nat
  Video : Bool
  Audio : Bool
  IsCreator : Bool
  deriving DecidableEq

structure ChatMessage where
  Nickname : String
  Message : String
  Timestamp : Nat
  deriving DecidableEq

structure Room where
  ID : String
  Password : String
  Creator : String
  FullControl : Bool
  AllowVideo : Bool
  AllowAudio : Bool
  Participants : List (String × Participant)
  ChatHistory : List ChatMessage
  deriving DecidableEq

structure JoinRequest where
  RoomID : String
  Password : String
  Nickname : String
  PeerID : String
  Video : Bool
  Audio : Bool
  deriving DecidableEq

structure RoomSettings where
  RoomID : String
  AllowVideo : Bool
  AllowAudio : Bool
  deriving DecidableEq

/-- The struct `WebRTCSignal`; `Kind` is its field `Type`. -/
structure WebRTCSignal where
  PeerID : String
  Kind : String
  Payload : String
  deriving DecidableEq

/-- The anonymous parameter struct of the `createRoom` branch. -/
structure CreateRoomParams where
  RoomID : String
  Password : String
  Nickname : String
  FullControl : Bool
  AllowVideo : Bool
  AllowAudio : Bool
  deriving DecidableEq

/-- The anonymous parameter struct of the `sendMessage` branch. -/
structure SendMessageParams where
  RoomID : String
  PeerID : String
  Nickname : String
  Message : String
  deriving DecidableEq

/-- The anonymous parameter struct of the `toggleMedia` branch; `Kind` is its
field `Type` ("video" or "audio"). -/
structure ToggleMediaParams where
  RoomID : String
  PeerID : String
  Kind : String
  Enabled : Bool
  deriving DecidableEq

/-- The anonymous parameter struct of the `leaveRoom` branch. -/
structure LeaveRoomParams where
  RoomID : String
  PeerID : String
  deriving DecidableEq

structure Server where
  rooms : List (String × Room)
  deriving DecidableEq

/-- What `json.Unmarshal(*req.Params, &params)` meets: `absent` is a nil
`req.Params`, `invalid` a raw message on which `json.Unmarshal` returns an
error, `ok v` the decoded value. -/
inductive Decoded (α : Type) where
  | absent
  | invalid
  | ok (v : α)
  deriving DecidableEq

/-- A JSON-RPC request: its method together with its parameters. `other` is a
method name that none of the cases of the `switch` matches. -/
inductive Request where
  | createRoom (params : Decoded CreateRoomParams)
  | joinRoom (params : Decoded JoinRequest)
  | sendMessage (params : Decoded SendMessageParams)
  | updateSettings (params : Decoded RoomSettings)
  | toggleMedia (params : Decoded ToggleMediaParams)
  | leaveRoom (params : Decoded LeaveRoomParams)
  | signal (params : Decoded WebRTCSignal)
  | other (method : String)
  deriving DecidableEq

/-- An entry of the `participants` list in the reply to a join, and the
payload of a `newParticipant` notification. -/
structure ParticipantInfo where
  peerId : String
  nickname : String
  video : Bool
  audio : Bool
  isCreator : Bool
  deriving DecidableEq

/-- The values sent in replies and notifications. -/
inductive Payload where
  | text (s : String)
  | roomInfo (roomId : String) (fullControl allowVideo allowAudio : Bool)
  | snapshot (roomId : String) (fullControl allowVideo allowAudio : Bool)
      (participants : List ParticipantInfo) (chatHistory : List ChatMessage)
  | participant (info : ParticipantInfo)
  | message (msg : ChatMessage)
  | settings (allowVideo allowAudio : Bool)
  | media (peerId type : String) (enabled : Bool)
  | left (peerId : String)
  | signal (params : WebRTCSignal)
  deriving DecidableEq

/-- The calls made on connections: `conn.Reply`, `conn.ReplyWithError` and
`p.Session.Notify`. -/
inductive Effect where
  | reply (conn : Nat) (result : Payload)
  | replyWithError (conn : Nat) (code : Int) (message : String)
  | notify (session : Nat) (method : String) (params : Payload)
  deriving DecidableEq

/-! ## Operations -/

def NewServer : Server :=
  { rooms := [] }

def createRoom (s : Server) (roomID password creatorNickname : String)
    (fullControl allowVideo allowAudio : Bool) : Server × Room :=
  let room : Room :=
    { ID := roomID
      Password := password
      Creator := creatorNickname
      FullControl := fullControl
      AllowVideo := allowVideo
      AllowAudio := allowAudio
      Participants := []
      ChatHistory := [] }
  ({ rooms := mapSet s.rooms roomID room }, room)

/-- The loop `for _, p := range room.Participants { if p.Nickname == nickname ... }`. -/
def nicknameInUse (ps : List (String × Participant)) (nickname : String) : Bool :=
  ps.any (fun e => decide (e.2.Nickname = nickname))

def joinRoom (s : Server) (conn : Nat) (req : JoinRequest) :
    Except String (Server × Room × Participant) :=
  match mapGet s.rooms req.RoomID with
  | none => .error "room does not exist"
  | some room =>
    if room.Password ≠ "" ∧ room.Password ≠ req.Password then
      .error "incorrect password"
    else if nicknameInUse room.Participants req.Nickname then
      .error "nickname already in use"
    else
      let isCreator : Bool := decide (req.Nickname = room.Creator)
      let participant : Participant :=
        { PeerID := req.PeerID
          Nickname := req.Nickname
          Session := conn
          Video := req.Video && (room.AllowVideo || isCreator)
          Audio := req.Audio && (room.AllowAudio || isCreator)
          IsCreator := isCreator }
      let room' : Room :=
        { room with Participants := mapSet room.Participants req.PeerID participant }
      .ok ({ rooms := mapSet s.rooms req.RoomID room' }, room', participant)

/-- The reply `-32602 Invalid params`. -/
def invalidParams (conn : Nat) : Effect :=
  .replyWithError conn (-32602) "Invalid params"

/-- The loop `for _, p := range ps { p.Session.Notify(ctx, method, params) }`. -/
def notifyAll (ps : List (String × Participant)) (method : String) (params : Payload) :
    List Effect :=
  ps.map (fun e => Effect.notify e.2.Session method params)

def infoOf (p : Participant) : ParticipantInfo :=
  { peerId := p.PeerID, nickname := p.Nickname, video := p.Video, audio := p.Audio,
    isCreator := p.IsCreator }

/-- The two loops of the `joinRoom` branch keep the participants `p` with
`p.PeerID != participant.PeerID`. -/
def others (ps : List (String × Participant)) (participant : Participant) :
    List (String × Participant) :=
  ps.filter (fun e => decide (e.2.PeerID ≠ participant.PeerID))

/-- The Go expression `s[:8]` used as a key of `rooms`: a panic when `s` has fewer
than 8 bytes; otherwise the first 8 bytes, which are `none` when they end
inside a character (such a byte string is the id of no room, every id being
a decoded JSON string). -/
def roomKey (peerID : String) : Except Fault (Option String) :=
  if goLen peerID < 8 then .error .sliceBounds
  else .ok ((takeBytes 8 peerID.data).map String.mk)

def Handle (s : Server) (conn : Nat) (now : Nat) :
    Request → Except Fault (Server × List Effect)
  | .createRoom .absent => .error .nilDereference
  | .createRoom .invalid => .ok (s, [invalidParams conn])
  | .createRoom (.ok params) =>
    let (s', room) :=
      createRoom s params.RoomID params.Password params.Nickname params.FullControl
        params.AllowVideo params.AllowAudio
    .ok (s', [.reply conn (.roomInfo room.ID room.FullControl room.AllowVideo room.AllowAudio)])
  | .joinRoom .absent => .error .nilDereference
  | .joinRoom .invalid => .ok (s, [invalidParams conn])
  | .joinRoom (.ok joinReq) =>
    match joinRoom s conn joinReq with
    | .error err => .ok (s, [.replyWithError conn (-32000) err])
    | .ok (s', room, participant) =>
      .ok (s',
        notifyAll (others room.Participants participant) "newParticipant"
            (.participant (infoOf participant))
          ++ [.reply conn (.snapshot room.ID room.FullControl room.AllowVideo room.AllowAudio
                ((others room.Participants participant).map (fun e => infoOf e.2))
                room.ChatHistory)])
  | .sendMessage .absent => .error .nilDereference
  | .sendMessage .invalid => .ok (s, [invalidParams conn])
  | .sendMessage (.ok params) =>
    match mapGet s.rooms params.RoomID with
    | none => .ok (s, [.replyWithError conn (-32000) "Room does not exist"])
    | some room =>
      let msg : ChatMessage :=
        { Nickname := params.Nickname, Message := params.Message, Timestamp := now }
      let room' : Room := { room with ChatHistory := room.ChatHistory ++ [msg] }
      .ok ({ rooms := mapSet s.rooms params.RoomID room' },
        notifyAll room'.Participants "newMessage" (.message msg)
          ++ [.reply conn (.text "Message sent")])
  | .updateSettings .absent => .error .nilDereference
  | .updateSettings .invalid => .ok (s, [invalidParams conn])
  | .updateSettings (.ok params) =>
    match mapGet s.rooms params.RoomID with
    | none => .ok (s, [.replyWithError conn (-32000) "Room does not exist"])
    | some room =>
      let room' : Room :=
        { room with AllowVideo := params.AllowVideo, AllowAudio := params.AllowAudio }
      .ok ({ rooms := mapSet s.rooms params.RoomID room' },
        notifyAll room'.Participants "roomSettingsUpdated"
            (.settings params.AllowVideo params.AllowAudio)
          ++ [.reply conn (.text "Settings updated")])
  | .toggleMedia .absent => .error .nilDereference
  | .toggleMedia .invalid => .ok (s, [invalidParams conn])
  | .toggleMedia (.ok params) =>
    match mapGet s.rooms params.RoomID with
    | none => .ok (s, [.replyWithError conn (-32000) "Room does not exist"])
    | some room =>
      match mapGet room.Participants params.PeerID with
      | none => .ok (s, [.replyWithError conn (-32000) "Participant not found"])
      | some participant =>
        let done (participant' : Participant) : Except Fault (Server × List Effect) :=
          let room' : Room :=
            { room with Participants := mapSet room.Participants params.PeerID participant' }
          .ok ({ rooms := mapSet s.rooms params.RoomID room' },
            notifyAll room'.Participants "mediaChanged"
                (.media params.PeerID params.Kind params.Enabled)
              ++ [.reply conn (.text "Media updated")])
        if params.Kind = "video" then
          if !participant.IsCreator && !room.AllowVideo then
            .ok (s, [.replyWithError conn (-32000) "Video is not allowed"])
          else done { participant with Video := params.Enabled }
        else if params.Kind = "audio" then
          if !participant.IsCreator && !room.AllowAudio then
            .ok (s, [.replyWithError conn (-32000) "Audio is not allowed"])
          else done { participant with Audio := params.Enabled }
        else done participant
  | .leaveRoom .absent => .error .nilDereference
  | .leaveRoom .invalid => .ok (s, [invalidParams conn])
  | .leaveRoom (.ok params) =>
    match mapGet s.rooms params.RoomID with
    | none => .ok (s, [.reply conn (.text "Room does not exist")])
    | some room =>
      let room' : Room :=
        { room with Participants := mapDelete room.Participants params.PeerID }
      let rooms' :=
        if room'.Participants.length = 0 then mapDelete s.rooms params.RoomID
        else mapSet s.rooms params.RoomID room'
      .ok ({ rooms := rooms' },
        notifyAll room'.Participants "participantLeft" (.left params.PeerID)
          ++ [.reply conn (.text "Left room")])
  | .signal .absent => .error .nilDereference
  | .signal .invalid => .ok (s, [invalidParams conn])
  | .signal (.ok params) =>
    match roomKey params.PeerID with
    | .error f => .error f
    | .ok key =>
      match key.bind (mapGet s.rooms) with
      | none => .ok (s, [.replyWithError conn (-32000) "Room does not exist"])
      | some room =>
        let forwarded : List Effect :=
          match mapGet room.Participants params.PeerID with
          | some target => [.notify target.Session "signal" (.signal params)]
          | none => []
        .ok (s, forwarded ++ [.reply conn (.text "Signal forwarded")])
  | .other _ => .ok (s, [.replyWithError conn (-32601) "Method not found"])

/-- The states the dispatcher can be in: those reached from `NewServer` by
requests that `Handle` completes. -/
inductive Reachable : Server → Prop where
  | init : Reachable NewServer
  | step {s s' : Server} {conn now : Nat} {req : Request} {effects : List Effect} :
      Reachable s → Handle s conn now req = .ok (s', effects) → Reachable s'

/-! ## Predicates used in the statements -/

/-- Two entries of a participant map do not clash: different keys, different
nicknames. -/
def Distinct (a b : String × Participant) : Prop :=
  a.1 ≠ b.1 ∧ a.2.Nickname ≠ b.2.Nickname

/-- The participants of a room have pairwise different keys and nicknames. -/
def RoomOK (r : Room) : Prop :=
  r.Participants.Pairwise Distinct

/-- Every registered room satisfies `RoomOK`. -/
def ServerOK (s : Server) : Prop :=
  ∀ e ∈ s.rooms, RoomOK e.2

/-- Every participant of a room is stored under its own `PeerID`, and its
`IsCreator` flag tells whether its nickname is the room's creator. -/
def RoomCoherent (r : Room) : Prop :=
  ∀ e ∈ r.Participants,
    e.2.PeerID = e.1 ∧ e.2.IsCreator = decide (e.2.Nickname = r.Creator)

/-- The participant record that `joinRoom` builds for a request on a room. -/
def joined (room : Room) (conn : Nat) (req : JoinRequest) : Participant :=
  { PeerID := req.PeerID
    Nickname := req.Nickname
    Session := conn
    Video := req.Video && (room.AllowVideo || decide (req.Nickname = room.Creator))
    Audio := req.Audio && (room.AllowAudio || decide (req.Nickname = room.Creator))
    IsCreator := decide (req.Nickname = room.Creator) }

/-- The room that `createRoom` builds from the parameters of a request. -/
def freshRoom (params : CreateRoomParams) : Room :=
  { ID := params.RoomID
    Password := params.Password
    Creator := params.Nickname
    FullControl := params.FullControl
    AllowVideo := params.AllowVideo
    AllowAudio := params.AllowAudio
    Participants := []
    ChatHistory := [] }

/-! ## Concrete states -/

def alice : Participant :=
  { PeerID := "p-alice", Nickname := "alice", Session := 1, Video := true, Audio := true,
    IsCreator := true }

def bob : Participant :=
  { PeerID := "p-bob", Nickname := "bob", Session := 2, Video := false, Audio := false,
    IsCreator := false }

/-- Room "r1" of creator alice, video and audio not allowed, nobody inside. -/
def emptyLobby : Room :=
  { ID := "r1", Password := "", Creator := "alice", FullControl := false, AllowVideo := false,
    AllowAudio := false, Participants := [], ChatHistory := [] }

/-- Room "r1" with alice inside. -/
def aliceLobby : Room :=
  { emptyLobby with Participants := [("p-alice", alice)] }

/-- Room "r1" with alice and bob inside. -/
def lobby : Room :=
  { emptyLobby with Participants := [("p-alice", alice), ("p-bob", bob)] }

/-- The registry holding `lobby`. -/
def lobbyServer : Server :=
  { rooms := [("r1", lobby)] }

/-- Room "r1" with alice and bob inside and one chat message. -/
def chattyLobby : Room :=
  { lobby with ChatHistory := [{ Nickname := "bob", Message := "hi", Timestamp := 7 }] }

/-- A room protected by the secret "s3cret", with alice inside. -/
def lockedRoom : Room :=
  { ID := "r2", Password := "s3cret", Creator := "alice", FullControl := false,
    AllowVideo := true, AllowAudio := true, Participants := [("p-alice", alice)],
    ChatHistory := [] }

def carol : Participant :=
  { PeerID := "roomAAAAcarol", Nickname := "carol", Session := 3, Video := false,
    Audio := false, IsCreator := true }

def dave : Participant :=
  { PeerID := "roomBBBBdave", Nickname := "dave", Session := 4, Video := false,
    Audio := false, IsCreator := true }

/-- Room "roomAAAA" with carol alone inside. -/
def carolRoom : Room :=
  { ID := "roomAAAA", Password := "", Creator := "carol", FullControl := false,
    AllowVideo := true, AllowAudio := true, Participants := [("roomAAAAcarol", carol)],
    ChatHistory := [] }

/-- Room "roomBBBB" with dave alone inside. -/
def daveRoom : Room :=
  { ID := "roomBBBB", Password := "", Creator := "dave", FullControl := false,
    AllowVideo := true, AllowAudio := true, Participants := [("roomBBBBdave", dave)],
    ChatHistory := [] }

/-- Two unrelated rooms. -/
def twoRooms : Server :=
  { rooms := [("roomAAAA", carolRoom), ("roomBBBB", daveRoom)] }

/-- A negotiation payload addressed to dave. -/
def offerToDave : WebRTCSignal :=
  { PeerID := "roomBBBBdave", Kind := "offer", Payload := "sdp" }

/-- A negotiation payload addressed to a peer that is in no room. -/
def offerToNobody : WebRTCSignal :=
  { PeerID := "roomAAAAzed", Kind := "offer", Payload := "sdp" }

/-- Participant bob with camera and microphone on. -/
def bobOn : Participant :=
  { bob with Video := true, Audio := true }

/-- Room "r1" created with video and audio allowed, nobody inside. -/
def openLobby : Room :=
  { emptyLobby with AllowVideo := true, AllowAudio := true }

/-- Room "r1" with bob inside, camera and microphone on, after the settings were
changed to allow neither video nor audio. -/
def closedLobby : Room :=
  { emptyLobby with Participants := [("p-bob", bobOn)] }

/-- The registry holding `closedLobby`. -/
def closedServer : Server :=
  { rooms := [("r1", closedLobby)] }

/-- Room "r3" created with full control, video and audio not allowed, with bob
inside. -/
def fullControlRoom : Room :=
  { ID := "r3", Password := "", Creator := "alice", FullControl := true, AllowVideo := false,
    AllowAudio := false, Participants := [("p-bob", bob)], ChatHistory := [] }

/-- Room "r1" as `chattyLobby`, after alice has allowed video. -/
def videoLobby : Room :=
  { chattyLobby with AllowVideo := true }

/-- Room "r1" as `videoLobby`, after bob has switched his camera on. -/
def bobVideoLobby : Room :=
  { videoLobby with
    Participants := [("p-alice", alice), ("p-bob", { bob with Video := true })] }

end SignalServer

/-!
# HTTP handlers and websocket handler of `src/go/main.go`

The global `rooms` map is passed explicitly. `updatePermissionsHandler` is one
function of the state and the decoded request body. `wsHandler` takes
`room.mu` twice, once for the check of the display name and once for the
insertion, and a third time in its deferred function: each of these critical
sections is one function (`wsAdmit`, `wsInsert`, `wsCleanup`), and `wsStep`
interleaves the sections of several calls of `wsHandler`. A `*sfu.Peer` is a
number, and so is a `time.Time`.
-/

namespace SfuServer

open SignalServer (mapGet mapSet mapDelete)

structure Participant where
  Peer : Nat
  DisplayName : String
  VideoActive : Bool
  AudioActive : Bool
  JoinedAt : Nat
  deriving DecidableEq

structure Room where
  ID : String
  Password : String
  Creator : String
  FullControl : Bool
  AllowVideo : Bool
  AllowAudio : Bool
  Participants : List (String × Participant)
  deriving DecidableEq

/-- The local type `UpdatePermissionsRequest` of `updatePermissionsHandler`. -/
structure UpdatePermissionsRequest where
  RoomID : String
  DisplayName : String
  AllowVideo : Bool
  AllowAudio : Bool
  deriving DecidableEq

/-- What `json.NewDecoder(r.Body).Decode(&req)` returns: an error with its text,
or the decoded value. -/
inductive Body (α : Type) where
  | invalid (err : String)
  | ok (v : α)
  deriving DecidableEq

/-- What a handler writes to its `http.ResponseWriter`: `failure` is
`http.Error(w, message, code)`, `status` is `w.WriteHeader(code)` followed by the
encoding of `map[string]string{"status": text}`. -/
inductive Response where
  | failure (code : Nat) (message : String)
  | status (code : Nat) (text : String)
  deriving DecidableEq

def StatusOK : Nat := 200

def StatusBadRequest : Nat := 400

def StatusUnauthorized : Nat := 401

def StatusNotFound : Nat := 404

def updatePermissionsHandler (rooms : List (String × Room)) :
    Body UpdatePermissionsRequest → List (String × Room) × Response
  | .invalid err => (rooms, .failure StatusBadRequest err)
  | .ok req =>
    match mapGet rooms req.RoomID with
    | none => (rooms, .failure StatusNotFound "room not found")
    | some room =>
      if room.Creator ≠ req.DisplayName then
        (rooms, .failure StatusUnauthorized "only room creator can update permissions")
      else
        (mapSet rooms req.RoomID
            { room with AllowVideo := req.AllowVideo, AllowAudio := req.AllowAudio },
          .status StatusOK "permissions updated")

/-- The part of `wsHandler` before the peer is created (after a successful
upgrade): the tests on the query parameters, the lookup of the room and the
test of the display name under `room.mu`. `true` when the handler goes on. -/
def wsAdmit (rooms : List (String × Room)) (roomID displayName : String) : Bool :=
  if roomID = "" ∨ displayName = "" then false
  else
    match mapGet rooms roomID with
    | none => false
    | some room =>
      match mapGet room.Participants displayName with
      | some _ => false
      | none => true

/-- The second critical section of `wsHandler`: the participant is stored under
its display name in the room found by `wsAdmit`. -/
def wsInsert (rooms : List (String × Room)) (roomID displayName : String) (peer now : Nat) :
    List (String × Room) :=
  match mapGet rooms roomID with
  | none => rooms
  | some room =>
    mapSet rooms roomID
      { room with
        Participants :=
          mapSet room.Participants displayName
            { Peer := peer, DisplayName := displayName, VideoActive := false,
              AudioActive := false, JoinedAt := now } }

/-- The deferred function of `wsHandler`, run when the connection is closed:
`delete(room.Participants, displayName)`. -/
def wsCleanup (rooms : List (String × Room)) (roomID displayName : String) :
    List (String × Room) :=
  match mapGet rooms roomID with
  | none => rooms
  | some room =>
    mapSet rooms roomID { room with Participants := mapDelete room.Participants displayName }

/-- The critical sections of the call number `h` of `wsHandler`. -/
inductive WsStep where
  | check (h : Nat)
  | insert (h : Nat)
  | close (h : Nat)
  deriving DecidableEq

/-- The registry together with the calls of `wsHandler` under way: `admitted`
holds the calls that passed the check and have not stored their participant
yet, `serving` the calls that stored it and serve their connection. -/
structure World where
  rooms : List (String × Room)
  admitted : List Nat
  serving : List Nat
  deriving DecidableEq

/-- One critical section of one call of `wsHandler`, all calls asking for the
same room and display name; the peer of call `h` is `h`. A call stores its
participant only after its check, and cleans up only after it stored. -/
def wsStep (roomID displayName : String) (now : Nat) (w : World) : WsStep → World
  | .check h =>
    if wsAdmit w.rooms roomID displayName then { w with admitted := w.admitted ++ [h] }
    else w
  | .insert h =>
    if h ∈ w.admitted then
      { rooms := wsInsert w.rooms roomID displayName h now
        admitted := w.admitted.filter (fun x => decide (x ≠ h))
        serving := w.serving ++ [h] }
    else w
  | .close h =>
    if h ∈ w.serving then
      { w with
        rooms := wsCleanup w.rooms roomID displayName
        serving := w.serving.filter (fun x => decide (x ≠ h)) }
    else w

/-- A schedule of critical sections, run in order. -/
def wsRun (roomID displayName : String) (now : Nat) (w : World) (steps : List WsStep) :
    World :=
  steps.foldl (wsStep roomID displayName now) w

/-- Room "r1" of creator alice, nobody inside. -/
def lobby : Room :=
  { ID := "r1", Password := "", Creator := "alice", FullControl := false, AllowVideo := false,
    AllowAudio := false, Participants := [] }

/-- Participant bob as stored by the call number `h` of `wsHandler` at time 0. -/
def bob (h : Nat) : Participant :=
  { Peer := h, DisplayName := "bob", VideoActive := false, AudioActive := false, JoinedAt := 0 }

end SfuServer

/-! # Theorems -/

namespace SignalServer

/-! ## Facts about maps -/

theorem mapGet_mem {α : Type} {m : List (String × α)} {k : String} {v : α}
    (h : mapGet m k = some v) : (k, v) ∈ m := by
  induction m with
  | nil => simp [mapGet] at h
  | cons e m ih =>
    obtain ⟨k', v'⟩ := e
    by_cases hk : k' = k
    · simp [mapGet, hk] at h
      simp [hk, h]
    · simp [mapGet, hk] at h
      exact List.mem_cons_of_mem _ (ih h)

theorem mem_mapSet {α : Type} {m : List (String × α)} {k : String} {v : α}
    {e : String × α} (h : e ∈ mapSet m k v) : e = (k, v) ∨ e ∈ m := by
  induction m with
  | nil => simpa [mapSet] using h
  | cons e' m ih =>
    obtain ⟨k', v'⟩ := e'
    by_cases hk : k' = k
    · simp [mapSet, hk] at h
      rcases h with h | h
      · exact Or.inl h
      · exact Or.inr (List.mem_cons_of_mem _ h)
    · simp [mapSet, hk] at h
      rcases h with h | h
      · exact Or.inr (by simp [h])
      · rcases ih h with h | h
        · exact Or.inl h
        · exact Or.inr (List.mem_cons_of_mem _ h)

theorem mem_mapDelete {α : Type} {m : List (String × α)} {k : String}
    {e : String × α} (h : e ∈ mapDelete m k) : e ∈ m ∧ e.1 ≠ k := by
  simpa [mapDelete] using h

theorem nicknameInUse_false {ps : List (String × Participant)} {n : String}
    (h : nicknameInUse ps n = false) : ∀ e ∈ ps, e.2.Nickname ≠ n := by
  intro e he hn
  have : nicknameInUse ps n = true := by
    simp only [nicknameInUse, List.any_eq_true]
    exact ⟨e, he, by simp [hn]⟩
  rw [h] at this
  exact Bool.noConfusion this

theorem pairwise_mapSet_fresh {ps : List (String × Participant)} {k : String}
    {p : Participant} (hps : ps.Pairwise Distinct)
    (hfresh : ∀ e ∈ ps, e.2.Nickname ≠ p.Nickname) :
    (mapSet ps k p).Pairwise Distinct := by
  induction ps with
  | nil => simp [mapSet]
  | cons e m ih =>
    obtain ⟨k', v'⟩ := e
    rw [List.pairwise_cons] at hps
    have hm : ∀ e ∈ m, e.2.Nickname ≠ p.Nickname :=
      fun e he => hfresh e (List.mem_cons_of_mem _ he)
    by_cases hk : k' = k
    · simp only [mapSet, hk, if_true]
      rw [List.pairwise_cons]
      refine ⟨fun b hb => ⟨?_, ?_⟩, hps.2⟩
      · exact hk ▸ (hps.1 b hb).1
      · exact fun h => hm b hb h.symm
    · simp only [mapSet, hk, if_false]
      rw [List.pairwise_cons]
      refine ⟨fun b hb => ?_, ih hps.2 hm⟩
      rcases mem_mapSet hb with hb | hb
      · subst hb
        exact ⟨hk, hfresh (k', v') (List.mem_cons_self _ _)⟩
      · exact hps.1 b hb

theorem pairwise_mapSet_same {ps : List (String × Participant)} {k : String}
    {p p' : Participant} (hps : ps.Pairwise Distinct)
    (hget : mapGet ps k = some p) (hnick : p'.Nickname = p.Nickname) :
    (mapSet ps k p').Pairwise Distinct := by
  induction ps with
  | nil => simp [mapGet] at hget
  | cons e m ih =>
    obtain ⟨k', v'⟩ := e
    rw [List.pairwise_cons] at hps
    by_cases hk : k' = k
    · simp only [mapGet, hk, if_true, Option.some.injEq] at hget
      simp only [mapSet, hk, if_true]
      rw [List.pairwise_cons]
      refine ⟨fun b hb => ⟨?_, ?_⟩, hps.2⟩
      · exact hk ▸ (hps.1 b hb).1
      · rw [hnick, ← hget]
        exact (hps.1 b hb).2
    · simp only [mapGet, hk, if_false] at hget
      simp only [mapSet, hk, if_false]
      rw [List.pairwise_cons]
      refine ⟨fun b hb => ?_, ih hps.2 hget⟩
      rcases mem_mapSet hb with hb | hb
      · subst hb
        refine ⟨hk, ?_⟩
        have := (hps.1 _ (mapGet_mem hget)).2
        simpa [hnick] using this
      · exact hps.1 b hb

theorem joinRoom_ok {s s' : Server} {conn : Nat} {req : JoinRequest} {room' : Room}
    {p : Participant} (h : joinRoom s conn req = .ok (s', room', p)) :
    ∃ room, mapGet s.rooms req.RoomID = some room
      ∧ ¬ (room.Password ≠ "" ∧ room.Password ≠ req.Password)
      ∧ nicknameInUse room.Participants req.Nickname = false
      ∧ p = joined room conn req
      ∧ room' = { room with Participants := mapSet room.Participants req.PeerID p }
      ∧ s' = { rooms := mapSet s.rooms req.RoomID room' } := by
  unfold joinRoom at h
  split at h
  · cases h
  · rename_i room hroom
    split at h
    · cases h
    · rename_i hpw
      split at h
      · cases h
      · rename_i hnick
        simp only [Except.ok.injEq, Prod.mk.injEq] at h
        obtain ⟨hs, hr, hp⟩ := h
        refine ⟨room, hroom, hpw, by simpa using hnick, ?_, ?_, ?_⟩
        · rw [← hp]; rfl
        · rw [← hr, ← hp]
        · rw [← hs, ← hr]

/-- A property of rooms that every mutation made by `Handle` keeps, holds of
every registered room after a completed request if it did before. -/
theorem Handle_preserves (P : Room → Prop)
    (hfresh : ∀ params : CreateRoomParams, P (freshRoom params))
    (hjoin : ∀ (r : Room) (conn : Nat) (req : JoinRequest), P r →
      nicknameInUse r.Participants req.Nickname = false →
      P { r with Participants := mapSet r.Participants req.PeerID (joined r conn req) })
    (hchat : ∀ (r : Room) (log : List ChatMessage), P r → P { r with ChatHistory := log })
    (hsettings : ∀ (r : Room) (v a : Bool), P r → P { r with AllowVideo := v, AllowAudio := a })
    (htoggle : ∀ (r : Room) (k : String) (p : Participant) (v a : Bool), P r →
      mapGet r.Participants k = some p →
      P { r with Participants := mapSet r.Participants k { p with Video := v, Audio := a } })
    (hleave : ∀ (r : Room) (k : String), P r →
      P { r with Participants := mapDelete r.Participants k })
    {s s' : Server} {conn now : Nat} {req : Request} {effects : List Effect}
    (hs : ∀ e ∈ s.rooms, P e.2)
    (h : Handle s conn now req = .ok (s', effects)) : ∀ e ∈ s'.rooms, P e.2 := by
  have hset : ∀ (k : String) (r : Room), P r → ∀ e ∈ mapSet s.rooms k r, P e.2 := by
    intro k r hr e he
    rcases mem_mapSet he with he | he
    · subst he; exact hr
    · exact hs e he
  have hget : ∀ (k : String) (r : Room), mapGet s.rooms k = some r → P r :=
    fun k r hk => hs _ (mapGet_mem hk)
  cases req with
  | createRoom params =>
    cases params with
    | absent => simp [Handle] at h
    | invalid => simp [Handle] at h; exact h.1 ▸ hs
    | ok v =>
      simp only [Handle, createRoom, Except.ok.injEq, Prod.mk.injEq] at h
      rw [← h.1]
      exact hset _ _ (hfresh v)
  | joinRoom params =>
    cases params with
    | absent => simp [Handle] at h
    | invalid => simp [Handle] at h; exact h.1 ▸ hs
    | ok v =>
      simp only [Handle] at h
      split at h
      · simp at h; exact h.1 ▸ hs
      · rename_i s1 room participant hj
        simp only [Except.ok.injEq, Prod.mk.injEq] at h
        rw [← h.1]
        obtain ⟨room, hroom, -, hnick, hp, hr, hs'⟩ := joinRoom_ok hj
        rw [hs', hr, hp]
        exact hset _ _ (hjoin room conn v (hget _ _ hroom) hnick)
  | sendMessage params =>
    cases params with
    | absent => simp [Handle] at h
    | invalid => simp [Handle] at h; exact h.1 ▸ hs
    | ok v =>
      simp only [Handle] at h
      split at h
      · simp at h; exact h.1 ▸ hs
      · rename_i room hroom
        simp only [Except.ok.injEq, Prod.mk.injEq] at h
        rw [← h.1]
        exact hset _ _ (hchat room _ (hget _ _ hroom))
  | updateSettings params =>
    cases params with
    | absent => simp [Handle] at h
    | invalid => simp [Handle] at h; exact h.1 ▸ hs
    | ok v =>
      simp only [Handle] at h
      split at h
      · simp at h; exact h.1 ▸ hs
      · rename_i room hroom
        simp only [Except.ok.injEq, Prod.mk.injEq] at h
        rw [← h.1]
        exact hset _ _ (hsettings room _ _ (hget _ _ hroom))
  | toggleMedia params =>
    cases params with
    | absent => simp [Handle] at h
    | invalid => simp [Handle] at h; exact h.1 ▸ hs
    | ok v =>
      simp only [Handle] at h
      split at h
      · simp at h; exact h.1 ▸ hs
      · rename_i room hroom
        split at h
        · simp at h; exact h.1 ▸ hs
        · rename_i participant hp
          have hr := hget _ _ hroom
          split at h
          · split at h
            · simp at h; exact h.1 ▸ hs
            · simp only [Except.ok.injEq, Prod.mk.injEq] at h
              rw [← h.1]
              exact hset _ _ (htoggle room _ participant v.Enabled participant.Audio hr hp)
          · split at h
            · split at h
              · simp at h; exact h.1 ▸ hs
              · simp only [Except.ok.injEq, Prod.mk.injEq] at h
                rw [← h.1]
                exact hset _ _ (htoggle room _ participant participant.Video v.Enabled hr hp)
            · simp only [Except.ok.injEq, Prod.mk.injEq] at h
              rw [← h.1]
              exact hset _ _ (htoggle room _ participant participant.Video participant.Audio hr hp)
  | leaveRoom params =>
    cases params with
    | absent => simp [Handle] at h
    | invalid => simp [Handle] at h; exact h.1 ▸ hs
    | ok v =>
      simp only [Handle] at h
      split at h
      · simp at h; exact h.1 ▸ hs
      · rename_i room hroom
        simp only [Except.ok.injEq, Prod.mk.injEq] at h
        rw [← h.1]
        split
        · exact fun e he => hs e (mem_mapDelete he).1
        · exact hset _ _ (hleave room _ (hget _ _ hroom))
  | signal params =>
    cases params with
    | absent => simp [Handle] at h
    | invalid => simp [Handle] at h; exact h.1 ▸ hs
    | ok v =>
      simp only [Handle] at h
      split at h
      · simp at h
      · split at h
        · simp at h; exact h.1 ▸ hs
        · simp only [Except.ok.injEq, Prod.mk.injEq] at h
          exact h.1 ▸ hs
  | other m =>
    simp [Handle] at h
    exact h.1 ▸ hs

/-- Every completed request preserves `ServerOK`. -/
theorem Handle_serverOK {s s' : Server} {conn now : Nat} {req : Request}
    {effects : List Effect} (hs : ServerOK s)
    (h : Handle s conn now req = .ok (s', effects)) : ServerOK s' :=
  Handle_preserves RoomOK
    (fun _ => List.Pairwise.nil)
    (fun _ _ _ hr hn => pairwise_mapSet_fresh hr (nicknameInUse_false hn))
    (fun _ _ hr => hr)
    (fun _ _ _ hr => hr)
    (fun _ _ _ _ _ hr hp => pairwise_mapSet_same hr hp rfl)
    (fun _ _ hr => List.Pairwise.sublist (List.filter_sublist _) hr)
    hs h

theorem reachable_serverOK {s : Server} (h : Reachable s) : ServerOK s := by
  induction h with
  | init => intro e he; simp [NewServer] at he
  | step _ hstep ih => exact Handle_serverOK ih hstep

/-- Every completed request preserves `RoomCoherent` in every room. -/
theorem Handle_coherent {s s' : Server} {conn now : Nat} {req : Request}
    {effects : List Effect} (hs : ∀ e ∈ s.rooms, RoomCoherent e.2)
    (h : Handle s conn now req = .ok (s', effects)) : ∀ e ∈ s'.rooms, RoomCoherent e.2 := by
  refine Handle_preserves RoomCoherent ?_ ?_ ?_ ?_ ?_ ?_ hs h
  · intro params e he
    simp [freshRoom] at he
  · intro r conn req hr _ e he
    rcases mem_mapSet he with he | he
    · subst he
      exact ⟨rfl, rfl⟩
    · exact hr e he
  · intro r log hr
    exact hr
  · intro r v a hr
    exact hr
  · intro r k p v a hr hp e he
    rcases mem_mapSet he with he | he
    · subst he
      exact hr (k, p) (mapGet_mem hp)
    · exact hr e he
  · intro r k hr e he
    exact hr e (mem_mapDelete he).1

/-- In a reachable state a participant's `IsCreator` flag is true exactly when
its nickname is the creator of its room, and it is stored under its own
`PeerID`. -/
theorem reachable_coherent {s : Server} (h : Reachable s) :
    ∀ e ∈ s.rooms, RoomCoherent e.2 := by
  induction h with
  | init => intro e he; simp [NewServer] at he
  | step _ hstep ih => exact Handle_coherent ih hstep

theorem mapGet_mapSet_self {α : Type} (m : List (String × α)) (k : String) (v : α) :
    mapGet (mapSet m k v) k = some v := by
  induction m with
  | nil => simp [mapSet, mapGet]
  | cons e m ih =>
    obtain ⟨k', v'⟩ := e
    by_cases hk : k' = k
    · simp [mapSet, mapGet, hk]
    · simp [mapSet, mapGet, hk, ih]

theorem mapGet_mapDelete_self {α : Type} (m : List (String × α)) (k : String) :
    mapGet (mapDelete m k) k = none := by
  induction m with
  | nil => simp [mapDelete, mapGet]
  | cons e m ih =>
    obtain ⟨k', v'⟩ := e
    by_cases hk : k' = k
    · simpa [mapDelete, hk] using ih
    · simpa [mapDelete, mapGet, hk] using ih

theorem distinct_symm {a b : String × Participant} (h : Distinct a b) : Distinct b a :=
  ⟨fun e => h.1 e.symm, fun e => h.2 e.symm⟩

/-- C1. Nickname uniqueness is an invariant of the dispatcher: in every state
reachable from the empty registry by completed requests, two participants
stored in one room under different peer identifiers have different
nicknames. -/
theorem nickname_unique_invariant (s : Server) (hs : Reachable s)
    (id : String) (room : Room) (hroom : (id, room) ∈ s.rooms)
    (k₁ k₂ : String) (p₁ p₂ : Participant)
    (h₁ : (k₁, p₁) ∈ room.Participants) (h₂ : (k₂, p₂) ∈ room.Participants)
    (hne : k₁ ≠ k₂) : p₁.Nickname ≠ p₂.Nickname := by
  have hroomOK : RoomOK room := reachable_serverOK hs (id, room) hroom
  have hsym : Symmetric Distinct := fun _ _ h => distinct_symm h
  have hpair : (k₁, p₁) ≠ (k₂, p₂) := fun e => hne (congrArg Prod.fst e)
  exact (List.Pairwise.forall hsym hroomOK h₁ h₂ hpair).2

theorem lobbyServer_reachable : Reachable lobbyServer :=
  Reachable.step
    (Reachable.step
      (Reachable.step Reachable.init
        (by decide :
          Handle NewServer 1 0
              (.createRoom (.ok
                { RoomID := "r1", Password := "", Nickname := "alice", FullControl := false,
                  AllowVideo := false, AllowAudio := false }))
            = .ok ({ rooms := [("r1", emptyLobby)] },
                [.reply 1 (.roomInfo "r1" false false false)])))
      (by decide :
        Handle { rooms := [("r1", emptyLobby)] } 1 0
            (.joinRoom (.ok
              { RoomID := "r1", Password := "", Nickname := "alice", PeerID := "p-alice",
                Video := true, Audio := true }))
          = .ok ({ rooms := [("r1", aliceLobby)] },
              [.reply 1 (.snapshot "r1" false false false [] [])])))
    (by decide :
      Handle { rooms := [("r1", aliceLobby)] } 2 0
          (.joinRoom (.ok
            { RoomID := "r1", Password := "", Nickname := "bob", PeerID := "p-bob",
              Video := true, Audio := true }))
        = .ok (lobbyServer,
            [.notify 1 "newParticipant" (.participant (infoOf bob)),
              .reply 2 (.snapshot "r1" false false false [infoOf alice] [])]))

theorem nickname_unique_invariant_witness :
    Reachable lobbyServer ∧ alice.Nickname ≠ bob.Nickname :=
  ⟨lobbyServer_reachable,
    nickname_unique_invariant lobbyServer lobbyServer_reachable "r1" lobby (by decide)
      "p-alice" "p-bob" alice bob (by decide) (by decide) (by decide)⟩

/-- The result of `joinRoom` on a registered room, branch by branch. -/
theorem joinRoom_of_get {s : Server} {conn : Nat} {req : JoinRequest} {room : Room}
    (hroom : mapGet s.rooms req.RoomID = some room) :
    joinRoom s conn req =
      if room.Password ≠ "" ∧ room.Password ≠ req.Password then
        .error "incorrect password"
      else if nicknameInUse room.Participants req.Nickname then
        .error "nickname already in use"
      else
        .ok ({ rooms := mapSet s.rooms req.RoomID
                { room with
                  Participants := mapSet room.Participants req.PeerID (joined room conn req) } },
          { room with
            Participants := mapSet room.Participants req.PeerID (joined room conn req) },
          joined room conn req) := by
  unfold joinRoom
  rw [hroom]
  rfl

/-- C2. On a registered room, `joinRoom` fails with the wrong-secret error
exactly when the room's secret is non-empty and differs from the supplied one;
with an empty secret, or with the room's secret supplied, a join under a free
nickname is accepted and stored; and a rejected join leaves the state, hence
the room's participants, as it was. -/
theorem joinRoom_secret (s : Server) (conn now : Nat) (req : JoinRequest) (room : Room)
    (hroom : mapGet s.rooms req.RoomID = some room) :
    (joinRoom s conn req = .error "incorrect password"
        ↔ room.Password ≠ "" ∧ room.Password ≠ req.Password)
      ∧ (room.Password = "" ∨ room.Password = req.Password →
          nicknameInUse room.Participants req.Nickname = false →
          ∃ s' room', joinRoom s conn req = .ok (s', room', joined room conn req)
            ∧ mapGet s'.rooms req.RoomID = some room'
            ∧ mapGet room'.Participants req.PeerID = some (joined room conn req))
      ∧ (∀ err, joinRoom s conn req = .error err →
          Handle s conn now (.joinRoom (.ok req))
              = .ok (s, [.replyWithError conn (-32000) err])
            ∧ mapGet s.rooms req.RoomID = some room) := by
  refine ⟨?_, ?_, ?_⟩
  · rw [joinRoom_of_get hroom]
    constructor
    · intro h
      by_contra hpw
      rw [if_neg hpw] at h
      split at h
      · simp only [Except.error.injEq] at h
        exact absurd h (by decide)
      · cases h
    · intro hpw
      rw [if_pos hpw]
  · intro hpw hnick
    have hnot : ¬ (room.Password ≠ "" ∧ room.Password ≠ req.Password) := by
      rintro ⟨h1, h2⟩
      rcases hpw with h | h
      · exact h1 h
      · exact h2 h
    rw [joinRoom_of_get hroom, if_neg hnot, hnick]
    exact ⟨_, _, rfl, mapGet_mapSet_self _ _ _, mapGet_mapSet_self _ _ _⟩
  · intro err herr
    refine ⟨?_, hroom⟩
    simp only [Handle, herr]

theorem joinRoom_secret_witness :
    (joinRoom { rooms := [("r2", lockedRoom)] } 2
          { RoomID := "r2", Password := "guess", Nickname := "bob", PeerID := "p-bob",
            Video := true, Audio := true }
        = .error "incorrect password"
      ↔ lockedRoom.Password ≠ "" ∧ lockedRoom.Password ≠ "guess")
    ∧ mapGet [("r2", lockedRoom)] "r2" = some lockedRoom :=
  ⟨(joinRoom_secret { rooms := [("r2", lockedRoom)] } 2 0
      { RoomID := "r2", Password := "guess", Nickname := "bob", PeerID := "p-bob",
        Video := true, Audio := true } lockedRoom (by decide)).1,
    by decide⟩

/-- C3. After a successful `joinRoom` the participant is stored in the room
under the supplied peer identifier, with the supplied nickname, with
`IsCreator = (nickname == room creator)` and with each media flag equal to the
requested one and-ed with (allowed or creator). -/
theorem joinRoom_stored (s s' : Server) (conn : Nat) (req : JoinRequest) (room' : Room)
    (p : Participant) (h : joinRoom s conn req = .ok (s', room', p)) :
    ∃ room, mapGet s.rooms req.RoomID = some room
      ∧ mapGet s'.rooms req.RoomID = some room'
      ∧ mapGet room'.Participants req.PeerID = some p
      ∧ p.PeerID = req.PeerID
      ∧ p.Nickname = req.Nickname
      ∧ p.IsCreator = decide (req.Nickname = room.Creator)
      ∧ p.Video = (req.Video && (room.AllowVideo || p.IsCreator))
      ∧ p.Audio = (req.Audio && (room.AllowAudio || p.IsCreator))
      ∧ room'.Creator = room.Creator
      ∧ room'.AllowVideo = room.AllowVideo
      ∧ room'.AllowAudio = room.AllowAudio := by
  obtain ⟨room, hroom, -, -, hp, hr, hs⟩ := joinRoom_ok h
  refine ⟨room, hroom, ?_, ?_, ?_, ?_, ?_, ?_, ?_, ?_, ?_, ?_⟩
  · rw [hs]; exact mapGet_mapSet_self _ _ _
  · rw [hr]; exact mapGet_mapSet_self _ _ _
  all_goals first | (rw [hp]; rfl) | (rw [hr])

theorem joinRoom_stored_witness :
    ∃ room, mapGet [("r1", aliceLobby)] "r1" = some room
      ∧ mapGet lobbyServer.rooms "r1" = some lobby
      ∧ mapGet lobby.Participants "p-bob" = some bob
      ∧ bob.PeerID = "p-bob"
      ∧ bob.Nickname = "bob"
      ∧ bob.IsCreator = decide ("bob" = room.Creator)
      ∧ bob.Video = (true && (room.AllowVideo || bob.IsCreator))
      ∧ bob.Audio = (true && (room.AllowAudio || bob.IsCreator))
      ∧ lobby.Creator = room.Creator
      ∧ lobby.AllowVideo = room.AllowVideo
      ∧ lobby.AllowAudio = room.AllowAudio :=
  joinRoom_stored { rooms := [("r1", aliceLobby)] } lobbyServer 2
    { RoomID := "r1", Password := "", Nickname := "bob", PeerID := "p-bob", Video := true,
      Audio := true }
    lobby bob (by decide)

/-- C4 (code defect). The dispatcher has no creator check in `updateSettings`:
sent on bob's connection, bob being a participant of "r1" who is not its
creator, the request is answered "Settings updated" and the room's
`AllowVideo` and `AllowAudio` change from false to true. -/
theorem updateSettings_by_non_creator :
    mapGet lobbyServer.rooms "r1" = some lobby
      ∧ mapGet lobby.Participants "p-bob" = some bob
      ∧ bob.Session = 2 ∧ bob.IsCreator = false ∧ bob.Nickname ≠ lobby.Creator
      ∧ lobby.AllowVideo = false ∧ lobby.AllowAudio = false
      ∧ Handle lobbyServer 2 0
          (.updateSettings (.ok { RoomID := "r1", AllowVideo := true, AllowAudio := true }))
        = .ok ({ rooms := [("r1", { lobby with AllowVideo := true, AllowAudio := true })] },
            [.notify 1 "roomSettingsUpdated" (.settings true true),
              .notify 2 "roomSettingsUpdated" (.settings true true),
              .reply 2 (.text "Settings updated")]) := by
  decide

/-- C5. In a room that does not allow video, a `toggleMedia` request of kind
video for a participant who is not the creator, with `enabled = true` (and
with any other value of `enabled`), is answered with the error "Video is not
allowed" and nothing else: the state, hence the participant's video flag, is
unchanged and no notification is sent. The same holds for audio in a room
that does not allow audio. -/
theorem toggleMedia_denied (s : Server) (conn now : Nat) (params : ToggleMediaParams)
    (room : Room) (p : Participant)
    (hroom : mapGet s.rooms params.RoomID = some room)
    (hp : mapGet room.Participants params.PeerID = some p)
    (hcreator : p.IsCreator = false) :
    (params.Kind = "video" → room.AllowVideo = false →
        Handle s conn now (.toggleMedia (.ok params))
          = .ok (s, [.replyWithError conn (-32000) "Video is not allowed"]))
      ∧ (params.Kind = "audio" → room.AllowAudio = false →
        Handle s conn now (.toggleMedia (.ok params))
          = .ok (s, [.replyWithError conn (-32000) "Audio is not allowed"])) := by
  constructor
  · intro hkind hallow
    simp [Handle, hroom, hp, hkind, hcreator, hallow]
  · intro hkind hallow
    have hne : ¬ params.Kind = "video" := by rw [hkind]; decide
    simp [Handle, hroom, hp, hkind, hcreator, hallow]

theorem toggleMedia_denied_witness :
    (lobby.AllowVideo = false →
        Handle lobbyServer 2 0
            (.toggleMedia (.ok
              { RoomID := "r1", PeerID := "p-bob", Kind := "video", Enabled := true }))
          = .ok (lobbyServer, [.replyWithError 2 (-32000) "Video is not allowed"]))
      ∧ bob.IsCreator = false :=
  ⟨((toggleMedia_denied lobbyServer 2 0
        { RoomID := "r1", PeerID := "p-bob", Kind := "video", Enabled := true } lobby bob
        (by decide) (by decide) (by decide)).1 rfl),
    by decide⟩

/-- C6 (code defect). `createRoom` has no check for an id that is already
registered: on the registry holding room "r1" with alice, bob and a chat
message, a `createRoom` request for "r1" is answered with a success reply and
the registered room is replaced by a new empty one with the request's secret,
creator and settings. -/
theorem createRoom_overwrites :
    mapGet [("r1", chattyLobby)] "r1" = some chattyLobby
      ∧ chattyLobby.Participants.length = 2 ∧ chattyLobby.ChatHistory.length = 1
      ∧ Handle { rooms := [("r1", chattyLobby)] } 5 0
          (.createRoom (.ok
            { RoomID := "r1", Password := "pw", Nickname := "eve", FullControl := false,
              AllowVideo := true, AllowAudio := true }))
        = .ok ({ rooms :=
                  [("r1",
                    { ID := "r1", Password := "pw", Creator := "eve", FullControl := false,
                      AllowVideo := true, AllowAudio := true, Participants := [],
                      ChatHistory := [] })] },
            [.reply 5 (.roomInfo "r1" false true true)]) := by
  decide

theorem not_mem_mapDelete_self {α : Type} (m : List (String × α)) (k : String) (v : α) :
    (k, v) ∉ mapDelete m k := by
  intro h
  exact (mem_mapDelete h).2 rfl

/-- C7. When the only participant of a registered room leaves, the room is
deleted from the registry: a following `joinRoom`, `sendMessage`,
`updateSettings` or `toggleMedia` on its id gets the room-not-found error and
changes nothing, and a following `createRoom` with that id registers a room
with no participants and an empty chat log, built from the request alone. -/
theorem leaveRoom_last_participant (s : Server) (conn now : Nat) (id peer : String)
    (room : Room) (p : Participant)
    (hroom : mapGet s.rooms id = some room) (hps : room.Participants = [(peer, p)]) :
    ∃ s', Handle s conn now (.leaveRoom (.ok { RoomID := id, PeerID := peer }))
          = .ok (s', [.reply conn (.text "Left room")])
      ∧ s'.rooms = mapDelete s.rooms id
      ∧ mapGet s'.rooms id = none
      ∧ (∀ r, (id, r) ∉ s'.rooms)
      ∧ (∀ (c n : Nat) (req : JoinRequest), req.RoomID = id →
          Handle s' c n (.joinRoom (.ok req))
            = .ok (s', [.replyWithError c (-32000) "room does not exist"]))
      ∧ (∀ (c n : Nat) (req : SendMessageParams), req.RoomID = id →
          Handle s' c n (.sendMessage (.ok req))
            = .ok (s', [.replyWithError c (-32000) "Room does not exist"]))
      ∧ (∀ (c n : Nat) (req : RoomSettings), req.RoomID = id →
          Handle s' c n (.updateSettings (.ok req))
            = .ok (s', [.replyWithError c (-32000) "Room does not exist"]))
      ∧ (∀ (c n : Nat) (req : ToggleMediaParams), req.RoomID = id →
          Handle s' c n (.toggleMedia (.ok req))
            = .ok (s', [.replyWithError c (-32000) "Room does not exist"]))
      ∧ (∀ (c n : Nat) (req : CreateRoomParams), req.RoomID = id →
          ∃ s'' r, Handle s' c n (.createRoom (.ok req))
              = .ok (s'', [.reply c
                  (.roomInfo id req.FullControl req.AllowVideo req.AllowAudio)])
            ∧ mapGet s''.rooms id = some r
            ∧ r = freshRoom req ∧ r.Participants = [] ∧ r.ChatHistory = []) := by
  have hgone : mapGet (mapDelete s.rooms id) id = none := mapGet_mapDelete_self _ _
  refine ⟨{ rooms := mapDelete s.rooms id }, ?_, rfl, hgone,
    fun r => not_mem_mapDelete_self _ _ r, ?_, ?_, ?_, ?_, ?_⟩
  · simp [Handle, hroom, hps, mapDelete, notifyAll]
  · intro c n req hreq
    subst hreq
    simp [Handle, joinRoom, hgone]
  · intro c n req hreq
    subst hreq
    simp [Handle, hgone]
  · intro c n req hreq
    subst hreq
    simp [Handle, hgone]
  · intro c n req hreq
    subst hreq
    simp [Handle, hgone]
  · intro c n req hreq
    subst hreq
    refine ⟨{ rooms := mapSet (mapDelete s.rooms req.RoomID) req.RoomID (freshRoom req) },
      freshRoom req, ?_, mapGet_mapSet_self _ _ _, rfl, rfl, rfl⟩
    simp [Handle, createRoom, freshRoom]

theorem leaveRoom_last_participant_witness :
    ∃ s', Handle { rooms := [("r1", aliceLobby)] } 1 0
            (.leaveRoom (.ok { RoomID := "r1", PeerID := "p-alice" }))
          = .ok (s', [.reply 1 (.text "Left room")])
      ∧ mapGet s'.rooms "r1" = none := by
  obtain ⟨s', h, -, hnone, -⟩ :=
    leaveRoom_last_participant { rooms := [("r1", aliceLobby)] } 1 0 "r1" "p-alice"
      aliceLobby alice (by decide) (by decide)
  exact ⟨s', h, hnone⟩

/-- C8 (counterexample). Carol is in room "roomAAAA" and dave in the unrelated
room "roomBBBB". A signal sent on carol's connection and addressed to dave, who
is not in carol's room, is delivered to dave and answered with a success reply;
and a signal addressed to a peer that is in no room at all is answered with the
success reply "Signal forwarded", not with an error. -/
theorem signal_crosses_rooms :
    (mapGet twoRooms.rooms "roomAAAA" = some carolRoom
      ∧ mapGet carolRoom.Participants "roomAAAAcarol" = some carol
      ∧ carol.Session = 3
      ∧ mapGet carolRoom.Participants offerToDave.PeerID = none
      ∧ Handle twoRooms 3 0 (.signal (.ok offerToDave))
        = .ok (twoRooms,
            [.notify 4 "signal" (.signal offerToDave), .reply 3 (.text "Signal forwarded")]))
    ∧ (mapGet carolRoom.Participants offerToNobody.PeerID = none
      ∧ mapGet daveRoom.Participants offerToNobody.PeerID = none
      ∧ Handle twoRooms 3 0 (.signal (.ok offerToNobody))
        = .ok (twoRooms, [.reply 3 (.text "Signal forwarded")])) := by
  decide

/-- C8 (amended). A signal request whose target is not a participant of the
room named by the first eight bytes of the target identifier (or names no
registered room) changes no state and sends no notification to anybody; when
no such room is registered the answer is the error "Room does not exist". -/
theorem signal_absent_target (s : Server) (conn now : Nat) (sig : WebRTCSignal)
    (key : Option String) (hkey : roomKey sig.PeerID = .ok key)
    (habsent : ∀ room, key.bind (mapGet s.rooms) = some room →
      mapGet room.Participants sig.PeerID = none) :
    ∃ effects, Handle s conn now (.signal (.ok sig)) = .ok (s, effects)
      ∧ (∀ session method params, Effect.notify session method params ∉ effects)
      ∧ (key.bind (mapGet s.rooms) = none →
          effects = [.replyWithError conn (-32000) "Room does not exist"]) := by
  cases hroom : key.bind (mapGet s.rooms) with
  | none =>
    refine ⟨[.replyWithError conn (-32000) "Room does not exist"], ?_, ?_, fun _ => rfl⟩
    · simp only [Handle, hkey, hroom]
    · intro session method params h
      simp at h
  | some room =>
    have hp := habsent room hroom
    refine ⟨[.reply conn (.text "Signal forwarded")], ?_, ?_, ?_⟩
    · simp only [Handle, hkey, hroom, hp, List.nil_append]
    · intro session method params h
      simp at h
    · intro h
      cases h

theorem signal_absent_target_witness :
    ∃ effects, Handle twoRooms 3 0 (.signal (.ok offerToNobody)) = .ok (twoRooms, effects)
      ∧ (∀ session method params, Effect.notify session method params ∉ effects)
      ∧ ((some "roomAAAA").bind (mapGet twoRooms.rooms) = none →
          effects = [.replyWithError 3 (-32000) "Room does not exist"]) :=
  signal_absent_target twoRooms 3 0 offerToNobody (some "roomAAAA") (by decide)
    (fun room h => by
      have hr : room = carolRoom := by
        have h' : some carolRoom = some room := h
        exact (Option.some.inj h').symm
      subst hr
      decide)

/-- C9 (code defect). `Handle` panics instead of replying, in any state (here
the empty registry): on a signal request whose `peerId` has fewer than 8
bytes, at the slice `params.PeerID[:8]`, and on a request without parameters,
at the dereference `*req.Params`. -/
theorem Handle_panics :
    Handle NewServer 1 0 (.signal (.ok { PeerID := "abc", Kind := "offer", Payload := "" }))
        = .error .sliceBounds
      ∧ Handle NewServer 1 0 (.createRoom .absent) = .error .nilDereference
      ∧ Handle NewServer 1 0 (.signal .absent) = .error .nilDereference := by
  decide

theorem not_error_mem_notifyAll {ps : List (String × Participant)} {m : String}
    {pl : Payload} {c c' : Nat} {r : Payload} {code : Int} {msg : String} :
    Effect.replyWithError c code msg ∉ notifyAll ps m pl ++ [.reply c' r] := by
  simp [notifyAll]

/-- C10. Requests are atomic on failure: when `Handle` answers a request with
an error reply, the state after the request (the registry and every room in
it, with participants, media flags, settings and chat log) is the state
before it. -/
theorem Handle_error_atomic (s s' : Server) (conn now : Nat) (req : Request)
    (effects : List Effect) (h : Handle s conn now req = .ok (s', effects))
    (herr : ∃ c code msg, Effect.replyWithError c code msg ∈ effects) : s' = s := by
  obtain ⟨c, code, msg, herr⟩ := herr
  cases req with
  | createRoom params =>
    cases params with
    | absent => simp [Handle] at h
    | invalid => simp [Handle] at h; exact h.1.symm
    | ok v =>
      simp only [Handle, createRoom, Except.ok.injEq, Prod.mk.injEq] at h
      rw [← h.2] at herr
      simp at herr
  | joinRoom params =>
    cases params with
    | absent => simp [Handle] at h
    | invalid => simp [Handle] at h; exact h.1.symm
    | ok v =>
      simp only [Handle] at h
      split at h
      · simp at h; exact h.1.symm
      · simp only [Except.ok.injEq, Prod.mk.injEq] at h
        rw [← h.2] at herr
        exact absurd herr not_error_mem_notifyAll
  | sendMessage params =>
    cases params with
    | absent => simp [Handle] at h
    | invalid => simp [Handle] at h; exact h.1.symm
    | ok v =>
      simp only [Handle] at h
      split at h
      · simp at h; exact h.1.symm
      · simp only [Except.ok.injEq, Prod.mk.injEq] at h
        rw [← h.2] at herr
        exact absurd herr not_error_mem_notifyAll
  | updateSettings params =>
    cases params with
    | absent => simp [Handle] at h
    | invalid => simp [Handle] at h; exact h.1.symm
    | ok v =>
      simp only [Handle] at h
      split at h
      · simp at h; exact h.1.symm
      · simp only [Except.ok.injEq, Prod.mk.injEq] at h
        rw [← h.2] at herr
        exact absurd herr not_error_mem_notifyAll
  | toggleMedia params =>
    cases params with
    | absent => simp [Handle] at h
    | invalid => simp [Handle] at h; exact h.1.symm
    | ok v =>
      simp only [Handle] at h
      split at h
      · simp at h; exact h.1.symm
      · split at h
        · simp at h; exact h.1.symm
        · split at h
          · split at h
            · simp at h; exact h.1.symm
            · simp only [Except.ok.injEq, Prod.mk.injEq] at h
              rw [← h.2] at herr
              exact absurd herr not_error_mem_notifyAll
          · split at h
            · split at h
              · simp at h; exact h.1.symm
              · simp only [Except.ok.injEq, Prod.mk.injEq] at h
                rw [← h.2] at herr
                exact absurd herr not_error_mem_notifyAll
            · simp only [Except.ok.injEq, Prod.mk.injEq] at h
              rw [← h.2] at herr
              exact absurd herr not_error_mem_notifyAll
  | leaveRoom params =>
    cases params with
    | absent => simp [Handle] at h
    | invalid => simp [Handle] at h; exact h.1.symm
    | ok v =>
      simp only [Handle] at h
      split at h
      · simp at h; exact h.1.symm
      · simp only [Except.ok.injEq, Prod.mk.injEq] at h
        rw [← h.2] at herr
        exact absurd herr not_error_mem_notifyAll
  | signal params =>
    cases params with
    | absent => simp [Handle] at h
    | invalid => simp [Handle] at h; exact h.1.symm
    | ok v =>
      simp only [Handle] at h
      split at h
      · simp at h
      · split at h
        · simp at h; exact h.1.symm
        · simp only [Except.ok.injEq, Prod.mk.injEq] at h
          exact h.1.symm
  | other m =>
    simp [Handle] at h
    exact h.1.symm

theorem Handle_error_atomic_witness :
    Handle lobbyServer 2 0
        (.joinRoom (.ok
          { RoomID := "r1", Password := "", Nickname := "alice", PeerID := "p-eve",
            Video := true, Audio := true }))
      = .ok (lobbyServer, [.replyWithError 2 (-32000) "nickname already in use"])
    ∧ lobbyServer = lobbyServer :=
  ⟨by decide,
    Handle_error_atomic lobbyServer lobbyServer 2 0
      (.joinRoom (.ok
        { RoomID := "r1", Password := "", Nickname := "alice", PeerID := "p-eve",
          Video := true, Audio := true }))
      [.replyWithError 2 (-32000) "nickname already in use"] (by decide)
      ⟨2, -32000, "nickname already in use", by decide⟩⟩

theorem closedServer_reachable : Reachable closedServer :=
  Reachable.step
    (Reachable.step
      (Reachable.step Reachable.init
        (by decide :
          Handle NewServer 1 0
              (.createRoom (.ok
                { RoomID := "r1", Password := "", Nickname := "alice", FullControl := false,
                  AllowVideo := true, AllowAudio := true }))
            = .ok ({ rooms := [("r1", openLobby)] },
                [.reply 1 (.roomInfo "r1" false true true)])))
      (by decide :
        Handle { rooms := [("r1", openLobby)] } 2 0
            (.joinRoom (.ok
              { RoomID := "r1", Password := "", Nickname := "bob", PeerID := "p-bob",
                Video := true, Audio := true }))
          = .ok ({ rooms := [("r1", { openLobby with Participants := [("p-bob", bobOn)] })] },
              [.reply 2 (.snapshot "r1" false true true [] [])])))
    (by decide :
      Handle { rooms := [("r1", { openLobby with Participants := [("p-bob", bobOn)] })] } 1 0
          (.updateSettings (.ok { RoomID := "r1", AllowVideo := false, AllowAudio := false }))
        = .ok (closedServer,
            [.notify 2 "roomSettingsUpdated" (.settings false false),
              .reply 1 (.text "Settings updated")]))

/-- C11 (counterexample). In a reachable state, bob is in room "r1" with his
camera on, is not the creator, and the room no longer allows video: his
`toggleMedia` request of kind video with `enabled = false` is answered with the
error "Video is not allowed" and his video flag stays true. -/
theorem disable_rejected :
    Reachable closedServer
      ∧ mapGet closedServer.rooms "r1" = some closedLobby
      ∧ mapGet closedLobby.Participants "p-bob" = some bobOn
      ∧ bobOn.Video = true ∧ bobOn.IsCreator = false ∧ closedLobby.AllowVideo = false
      ∧ Handle closedServer 2 0
          (.toggleMedia (.ok
            { RoomID := "r1", PeerID := "p-bob", Kind := "video", Enabled := false }))
        = .ok (closedServer, [.replyWithError 2 (-32000) "Video is not allowed"]) :=
  ⟨closedServer_reachable, by decide⟩

/-- C11 (amended). Disabling is permitted to the creator and, for a medium the
room allows, to everybody: for a participant of a room who is the creator or
whose room allows video, a `toggleMedia` request of kind video with
`enabled = false` is answered "Media updated" and leaves the participant's video
flag false; for a participant who is not the creator in a room that does not
allow video it is answered with the error "Video is not allowed" and changes
nothing. The same holds for audio. -/
theorem toggleMedia_disable (s : Server) (conn now : Nat) (params : ToggleMediaParams)
    (room : Room) (p : Participant)
    (hroom : mapGet s.rooms params.RoomID = some room)
    (hp : mapGet room.Participants params.PeerID = some p)
    (hoff : params.Enabled = false) :
    (params.Kind = "video" →
        (p.IsCreator = true ∨ room.AllowVideo = true →
          ∃ s' room' p',
            Handle s conn now (.toggleMedia (.ok params))
              = .ok (s', notifyAll room'.Participants "mediaChanged"
                    (.media params.PeerID "video" false)
                  ++ [.reply conn (.text "Media updated")])
            ∧ mapGet s'.rooms params.RoomID = some room'
            ∧ mapGet room'.Participants params.PeerID = some p'
            ∧ p'.Video = false)
        ∧ (p.IsCreator = false → room.AllowVideo = false →
          Handle s conn now (.toggleMedia (.ok params))
            = .ok (s, [.replyWithError conn (-32000) "Video is not allowed"])))
      ∧ (params.Kind = "audio" →
        (p.IsCreator = true ∨ room.AllowAudio = true →
          ∃ s' room' p',
            Handle s conn now (.toggleMedia (.ok params))
              = .ok (s', notifyAll room'.Participants "mediaChanged"
                    (.media params.PeerID "audio" false)
                  ++ [.reply conn (.text "Media updated")])
            ∧ mapGet s'.rooms params.RoomID = some room'
            ∧ mapGet room'.Participants params.PeerID = some p'
            ∧ p'.Audio = false)
        ∧ (p.IsCreator = false → room.AllowAudio = false →
          Handle s conn now (.toggleMedia (.ok params))
            = .ok (s, [.replyWithError conn (-32000) "Audio is not allowed"]))) := by
  refine ⟨fun hkind => ⟨fun hperm => ?_, fun hc ha => ?_⟩,
    fun hkind => ⟨fun hperm => ?_, fun hc ha => ?_⟩⟩
  · have hguard : (!p.IsCreator && !room.AllowVideo) = false := by
      rcases hperm with h | h <;> simp [h]
    refine ⟨{ rooms := mapSet s.rooms params.RoomID { room with
          Participants := mapSet room.Participants params.PeerID { p with Video := false } } },
      { room with
        Participants := mapSet room.Participants params.PeerID { p with Video := false } },
      { p with Video := false }, ?_, mapGet_mapSet_self _ _ _, mapGet_mapSet_self _ _ _, rfl⟩
    simp [Handle, hroom, hp, hkind, hguard, hoff]
  · simp [Handle, hroom, hp, hkind, hc, ha]
  · have hne : ¬ params.Kind = "video" := by rw [hkind]; decide
    have hguard : (!p.IsCreator && !room.AllowAudio) = false := by
      rcases hperm with h | h <;> simp [h]
    refine ⟨{ rooms := mapSet s.rooms params.RoomID { room with
          Participants := mapSet room.Participants params.PeerID { p with Audio := false } } },
      { room with
        Participants := mapSet room.Participants params.PeerID { p with Audio := false } },
      { p with Audio := false }, ?_, mapGet_mapSet_self _ _ _, mapGet_mapSet_self _ _ _, rfl⟩
    simp [Handle, hroom, hp, hkind, hguard, hoff]
  · simp [Handle, hroom, hp, hkind, hc, ha]

theorem toggleMedia_disable_witness :
    (alice.IsCreator = true ∨ lobby.AllowVideo = true →
      ∃ s' room' p',
        Handle lobbyServer 1 0
            (.toggleMedia (.ok
              { RoomID := "r1", PeerID := "p-alice", Kind := "video", Enabled := false }))
          = .ok (s', notifyAll room'.Participants "mediaChanged"
                (.media "p-alice" "video" false)
              ++ [.reply 1 (.text "Media updated")])
        ∧ mapGet s'.rooms "r1" = some room'
        ∧ mapGet room'.Participants "p-alice" = some p'
        ∧ p'.Video = false)
      ∧ alice.IsCreator = true :=
  ⟨((toggleMedia_disable lobbyServer 1 0
        { RoomID := "r1", PeerID := "p-alice", Kind := "video", Enabled := false } lobby alice
        (by decide) (by decide) rfl).1 rfl).1,
    by decide⟩

/-- C12 (counterexample). Room "r3" was created with full control and allows
neither video nor audio; bob is in it and is not the creator. His `toggleMedia`
request enabling video is rejected, and a join by another non-creator asking
for video and audio is stored with both flags false. -/
theorem fullControl_ignored :
    fullControlRoom.FullControl = true
      ∧ mapGet fullControlRoom.Participants "p-bob" = some bob ∧ bob.IsCreator = false
      ∧ Handle { rooms := [("r3", fullControlRoom)] } 2 0
          (.toggleMedia (.ok
            { RoomID := "r3", PeerID := "p-bob", Kind := "video", Enabled := true }))
        = .ok ({ rooms := [("r3", fullControlRoom)] },
            [.replyWithError 2 (-32000) "Video is not allowed"])
      ∧ Handle { rooms := [("r3", fullControlRoom)] } 3 0
          (.joinRoom (.ok
            { RoomID := "r3", Password := "", Nickname := "carol", PeerID := "p-carol",
              Video := true, Audio := true }))
        = .ok ({ rooms :=
                  [("r3", { fullControlRoom with
                      Participants :=
                        [("p-bob", bob),
                          ("p-carol",
                            { PeerID := "p-carol", Nickname := "carol", Session := 3,
                              Video := false, Audio := false, IsCreator := false })] })] },
            [.notify 2 "newParticipant"
                (.participant
                  { peerId := "p-carol", nickname := "carol", video := false, audio := false,
                    isCreator := false }),
              .reply 3 (.snapshot "r3" true false false [infoOf bob] [])]) := by
  decide

/-- C12 (amended). In a room with `FullControl = true` the permission checks on
participants other than the creator are not bypassed: a `toggleMedia` request
for such a participant is rejected when the room does not allow the medium,
and a join under a nickname other than the creator's gets each media flag
equal to the requested one and-ed with the room's permission; the room keeps
`FullControl = true`. -/
theorem fullControl_no_bypass (s : Server) (conn now : Nat) (id : String) (room : Room)
    (hroom : mapGet s.rooms id = some room) (hfc : room.FullControl = true) :
    (∀ (peer : String) (p : Participant) (enabled : Bool),
        mapGet room.Participants peer = some p → p.IsCreator = false →
        (room.AllowVideo = false →
          Handle s conn now
              (.toggleMedia (.ok
                { RoomID := id, PeerID := peer, Kind := "video", Enabled := enabled }))
            = .ok (s, [.replyWithError conn (-32000) "Video is not allowed"]))
        ∧ (room.AllowAudio = false →
          Handle s conn now
              (.toggleMedia (.ok
                { RoomID := id, PeerID := peer, Kind := "audio", Enabled := enabled }))
            = .ok (s, [.replyWithError conn (-32000) "Audio is not allowed"])))
      ∧ (∀ (req : JoinRequest) (s' : Server) (room' : Room) (p : Participant),
        req.RoomID = id → req.Nickname ≠ room.Creator →
        joinRoom s conn req = .ok (s', room', p) →
        room'.FullControl = true
          ∧ p.Video = (req.Video && room.AllowVideo)
          ∧ p.Audio = (req.Audio && room.AllowAudio)) := by
  constructor
  · intro peer p enabled hp hc
    constructor
    · intro ha
      simp [Handle, hroom, hp, hc, ha]
    · intro ha
      simp [Handle, hroom, hp, hc, ha]
  · intro req s' room' p hid hnick hjoin
    subst hid
    obtain ⟨room₀, hroom₀, -, -, hp, hr, -⟩ := joinRoom_ok hjoin
    rw [hroom] at hroom₀
    cases hroom₀
    subst hr
    subst hp
    refine ⟨hfc, ?_, ?_⟩ <;> simp [joined, hnick]

theorem fullControl_no_bypass_witness :
    (fullControlRoom.AllowVideo = false →
        Handle { rooms := [("r3", fullControlRoom)] } 2 0
            (.toggleMedia (.ok
              { RoomID := "r3", PeerID := "p-bob", Kind := "video", Enabled := true }))
          = .ok ({ rooms := [("r3", fullControlRoom)] },
              [.replyWithError 2 (-32000) "Video is not allowed"]))
      ∧ fullControlRoom.FullControl = true :=
  ⟨((fullControl_no_bypass { rooms := [("r3", fullControlRoom)] } 2 0 "r3" fullControlRoom
        (by decide) (by decide)).1 "p-bob" bob true (by decide) (by decide)).1,
    by decide⟩

/-- C13 (code defect). The `sendMessage` branch never looks the sender up: a
request on connection 9 naming the peer "p-ghost", who is not a participant of
room "r1" (nor is connection 9 the session of one), is answered "Message
sent", its text is appended to the chat log and notified to alice and bob. -/
theorem sendMessage_from_stranger :
    mapGet lobbyServer.rooms "r1" = some lobby
      ∧ mapGet lobby.Participants "p-ghost" = none
      ∧ (∀ e ∈ lobby.Participants, e.2.Session ≠ 9)
      ∧ Handle lobbyServer 9 5
          (.sendMessage (.ok
            { RoomID := "r1", PeerID := "p-ghost", Nickname := "mallory", Message := "spam" }))
        = .ok ({ rooms :=
                  [("r1", { lobby with
                      ChatHistory :=
                        [{ Nickname := "mallory", Message := "spam", Timestamp := 5 }] })] },
            [.notify 1 "newMessage"
                (.message { Nickname := "mallory", Message := "spam", Timestamp := 5 }),
              .notify 2 "newMessage"
                (.message { Nickname := "mallory", Message := "spam", Timestamp := 5 }),
              .reply 9 (.text "Message sent")]) := by
  decide

theorem mapDelete_of_get_none {α : Type} {m : List (String × α)} {k : String}
    (h : mapGet m k = none) : mapDelete m k = m := by
  induction m with
  | nil => rfl
  | cons e m ih =>
    obtain ⟨k', v'⟩ := e
    by_cases hk : k' = k
    · simp [mapGet, hk] at h
    · simp only [mapGet, hk, if_false] at h
      have hm := ih h
      simp only [mapDelete] at hm ⊢
      rw [List.filter_cons]
      simp only [ne_eq, hk, not_false_eq_true, decide_True, if_true]
      rw [hm]

theorem mapSet_of_get {α : Type} {m : List (String × α)} {k : String} {v : α}
    (h : mapGet m k = some v) : mapSet m k v = m := by
  induction m with
  | nil => simp [mapGet] at h
  | cons e m ih =>
    obtain ⟨k', v'⟩ := e
    by_cases hk : k' = k
    · simp only [mapGet, hk, if_true, Option.some.injEq] at h
      simp [mapSet, hk, h]
    · simp only [mapGet, hk, if_false] at h
      simp [mapSet, hk, ih h]

/-- C14 (counterexample). Room "r1" has just been created and nobody has joined
it. A `leaveRoom` request naming "p-ghost", who is not a participant, removes
the room from the registry. -/
theorem leaveRoom_removes_unjoined_room :
    Reachable { rooms := [("r1", emptyLobby)] }
      ∧ mapGet emptyLobby.Participants "p-ghost" = none
      ∧ Handle { rooms := [("r1", emptyLobby)] } 9 0
          (.leaveRoom (.ok { RoomID := "r1", PeerID := "p-ghost" }))
        = .ok ({ rooms := [] }, [.reply 9 (.text "Left room")]) :=
  ⟨Reachable.step Reachable.init
      (by decide :
        Handle NewServer 1 0
            (.createRoom (.ok
              { RoomID := "r1", Password := "", Nickname := "alice", FullControl := false,
                AllowVideo := false, AllowAudio := false }))
          = .ok ({ rooms := [("r1", emptyLobby)] },
              [.reply 1 (.roomInfo "r1" false false false)])),
    by decide, by decide⟩

/-- C14 (amended). A `leaveRoom` request naming a peer that is not a participant
of the room leaves the room's participants as they are. When the room has a
participant, the whole state is unchanged and every participant is notified
`participantLeft`; when the room has none (for instance it was created and
never joined), the room is deleted from the registry. -/
theorem leaveRoom_non_participant (s : Server) (conn now : Nat) (params : LeaveRoomParams)
    (room : Room) (hroom : mapGet s.rooms params.RoomID = some room)
    (hp : mapGet room.Participants params.PeerID = none) :
    (room.Participants ≠ [] →
        Handle s conn now (.leaveRoom (.ok params))
          = .ok (s, notifyAll room.Participants "participantLeft" (.left params.PeerID)
              ++ [.reply conn (.text "Left room")]))
      ∧ (room.Participants = [] →
        Handle s conn now (.leaveRoom (.ok params))
          = .ok ({ rooms := mapDelete s.rooms params.RoomID },
              [.reply conn (.text "Left room")])) := by
  have hdel : mapDelete room.Participants params.PeerID = room.Participants :=
    mapDelete_of_get_none hp
  constructor
  · intro hne
    have hlen : ¬ room.Participants.length = 0 := by
      intro h
      exact hne (List.length_eq_zero.mp h)
    have hroom' : mapSet s.rooms params.RoomID room = s.rooms := mapSet_of_get hroom
    simp only [Handle, hroom, hdel, hlen, if_false]
    rw [hroom']
  · intro hnil
    simp [Handle, hroom, hnil, notifyAll, mapDelete]

theorem leaveRoom_non_participant_witness :
    (lobby.Participants ≠ [] →
        Handle lobbyServer 9 0 (.leaveRoom (.ok { RoomID := "r1", PeerID := "p-ghost" }))
          = .ok (lobbyServer, notifyAll lobby.Participants "participantLeft" (.left "p-ghost")
              ++ [.reply 9 (.text "Left room")]))
      ∧ mapGet lobby.Participants "p-ghost" = none :=
  ⟨(leaveRoom_non_participant lobbyServer 9 0 { RoomID := "r1", PeerID := "p-ghost" } lobby
      (by decide) (by decide)).1,
    by decide⟩

/-- C16. On a registered room `sendMessage` always succeeds: the reply is
"Message sent", and the room's chat log afterwards is the log before followed
by one entry with the request's nickname and text (and the time of the
request); nothing else in the room changes. -/
theorem sendMessage_appends (s : Server) (conn now : Nat) (params : SendMessageParams)
    (room : Room) (hroom : mapGet s.rooms params.RoomID = some room) :
    ∃ s' room',
      Handle s conn now (.sendMessage (.ok params))
        = .ok (s', notifyAll room.Participants "newMessage"
              (.message
                { Nickname := params.Nickname, Message := params.Message, Timestamp := now })
            ++ [.reply conn (.text "Message sent")])
      ∧ mapGet s'.rooms params.RoomID = some room'
      ∧ room'.ChatHistory
        = room.ChatHistory
          ++ [{ Nickname := params.Nickname, Message := params.Message, Timestamp := now }]
      ∧ room' = { room with ChatHistory := room'.ChatHistory } := by
  refine ⟨{ rooms := mapSet s.rooms params.RoomID { room with
        ChatHistory := room.ChatHistory
          ++ [{ Nickname := params.Nickname, Message := params.Message, Timestamp := now }] } },
    { room with
      ChatHistory := room.ChatHistory
        ++ [{ Nickname := params.Nickname, Message := params.Message, Timestamp := now }] },
    ?_, mapGet_mapSet_self _ _ _, rfl, rfl⟩
  simp only [Handle, hroom]

theorem sendMessage_appends_witness :
    ∃ s' room',
      Handle { rooms := [("r1", chattyLobby)] } 1 9
          (.sendMessage (.ok
            { RoomID := "r1", PeerID := "p-alice", Nickname := "alice", Message := "hello" }))
        = .ok (s', notifyAll chattyLobby.Participants "newMessage"
              (.message { Nickname := "alice", Message := "hello", Timestamp := 9 })
            ++ [.reply 1 (.text "Message sent")])
      ∧ mapGet s'.rooms "r1" = some room'
      ∧ room'.ChatHistory
        = chattyLobby.ChatHistory
          ++ [{ Nickname := "alice", Message := "hello", Timestamp := 9 }]
      ∧ room' = { chattyLobby with ChatHistory := room'.ChatHistory } :=
  sendMessage_appends { rooms := [("r1", chattyLobby)] } 1 9
    { RoomID := "r1", PeerID := "p-alice", Nickname := "alice", Message := "hello" }
    chattyLobby (by decide)

theorem mem_mapSet_iff {α : Type} {m : List (String × α)} {k : String} {v : α}
    {e : String × α} (h : m.Pairwise (fun a b => a.1 ≠ b.1)) :
    e ∈ mapSet m k v ↔ e = (k, v) ∨ (e ∈ m ∧ e.1 ≠ k) := by
  induction m with
  | nil => simp [mapSet]
  | cons e' m ih =>
    obtain ⟨k', v'⟩ := e'
    rw [List.pairwise_cons] at h
    by_cases hk : k' = k
    · subst hk
      simp only [mapSet, if_true, List.mem_cons]
      constructor
      · rintro (he | he)
        · exact Or.inl he
        · exact Or.inr ⟨Or.inr he, fun heq => h.1 e he heq.symm⟩
      · rintro (he | ⟨he | he, hne⟩)
        · exact Or.inl he
        · exact absurd (by rw [he]) hne
        · exact Or.inr he
    · simp only [mapSet, hk, if_false, List.mem_cons]
      rw [ih h.2]
      constructor
      · rintro (he | he | ⟨he, hne⟩)
        · exact Or.inr ⟨Or.inl he, by rw [he]; exact hk⟩
        · exact Or.inl he
        · exact Or.inr ⟨Or.inr he, hne⟩
      · rintro (he | ⟨he | he, hne⟩)
        · exact Or.inr (Or.inl he)
        · exact Or.inl he
        · exact Or.inr (Or.inr ⟨he, hne⟩)

theorem others_mapSet {ps : List (String × Participant)} {k : String} {p : Participant}
    (hkeys : ∀ e ∈ ps, e.2.PeerID = e.1) (hp : p.PeerID = k) :
    others (mapSet ps k p) p = mapDelete ps k := by
  have hfilter : ∀ m : List (String × Participant), (∀ e ∈ m, e.2.PeerID = e.1) →
      m.filter (fun e => decide (e.2.PeerID ≠ p.PeerID)) = m.filter (fun e => decide (e.1 ≠ k)) := by
    intro m hm
    apply List.filter_congr
    intro e he
    rw [hm e he, hp]
  induction ps with
  | nil => simp [mapSet, others, mapDelete, List.filter_cons]
  | cons e m ih =>
    obtain ⟨k', v'⟩ := e
    have hm : ∀ e ∈ m, e.2.PeerID = e.1 := fun e he => hkeys e (List.mem_cons_of_mem _ he)
    have hv : v'.PeerID = k' := hkeys (k', v') (List.mem_cons_self _ _)
    by_cases hk : k' = k
    · simp only [mapSet, hk, if_true, others, mapDelete]
      rw [List.filter_cons, List.filter_cons]
      simp only [ne_eq, not_true_eq_false, decide_False, Bool.false_eq_true, if_false]
      exact hfilter m hm
    · have ih' := ih hm
      simp only [others, mapDelete] at ih' ⊢
      simp only [mapSet, hk, if_false]
      have hkeep : decide ((k', v').2.PeerID ≠ p.PeerID) = true := by simp [hv, hp, hk]
      have hkeep' : decide ((k', v').1 ≠ k) = true := by simp [hk]
      rw [List.filter_cons, List.filter_cons, if_pos hkeep, if_pos hkeep', ih']

/-- C15. On a successful join in a reachable state, one notification
`newParticipant`, carrying the joiner's peer id, nickname, media flags and
creator flag, is sent to the session of each participant the room held under
another peer id, and the reply to the joiner is a snapshot with the room's
settings, the list of those same participants and the room's chat log. The
participants notified are exactly the participants of the room after the join
other than the joiner, and no other notification is sent. -/
theorem joinRoom_broadcast (s s' : Server) (conn now : Nat) (req : JoinRequest)
    (room room' : Room) (p : Participant) (hs : Reachable s)
    (hroom : mapGet s.rooms req.RoomID = some room)
    (hjoin : joinRoom s conn req = .ok (s', room', p)) :
    ∃ effects,
      Handle s conn now (.joinRoom (.ok req)) = .ok (s', effects)
      ∧ effects
        = (room.Participants.filter (fun e => decide (e.1 ≠ req.PeerID))).map
              (fun e => Effect.notify e.2.Session "newParticipant"
                (.participant
                  { peerId := req.PeerID, nickname := req.Nickname, video := p.Video,
                    audio := p.Audio, isCreator := p.IsCreator }))
            ++ [.reply conn
                (.snapshot room.ID room.FullControl room.AllowVideo room.AllowAudio
                  ((room.Participants.filter (fun e => decide (e.1 ≠ req.PeerID))).map
                    (fun e =>
                      { peerId := e.2.PeerID, nickname := e.2.Nickname, video := e.2.Video,
                        audio := e.2.Audio, isCreator := e.2.IsCreator }))
                  room.ChatHistory)]
      ∧ (∀ session method params, Effect.notify session method params ∈ effects ↔
          method = "newParticipant"
            ∧ params = .participant
                { peerId := req.PeerID, nickname := req.Nickname, video := p.Video,
                  audio := p.Audio, isCreator := p.IsCreator }
            ∧ ∃ e ∈ room'.Participants, e.1 ≠ req.PeerID ∧ e.2.Session = session)
      ∧ (∀ e, e ∈ room'.Participants
          ↔ e = (req.PeerID, p) ∨ (e ∈ room.Participants ∧ e.1 ≠ req.PeerID))
      ∧ p.PeerID = req.PeerID ∧ p.Nickname = req.Nickname := by
  obtain ⟨room₀, hroom₀, -, -, hp, hr, -⟩ := joinRoom_ok hjoin
  rw [hroom] at hroom₀
  cases hroom₀
  have hcoh : RoomCoherent room := reachable_coherent hs _ (mapGet_mem hroom)
  have hok : RoomOK room := reachable_serverOK hs _ (mapGet_mem hroom)
  have hkeys : ∀ e ∈ room.Participants, e.2.PeerID = e.1 := fun e he => (hcoh e he).1
  have hpid : p.PeerID = req.PeerID := by rw [hp]; rfl
  have hnick : p.Nickname = req.Nickname := by rw [hp]; rfl
  have hothers : others room'.Participants p = mapDelete room.Participants req.PeerID := by
    rw [hr]
    exact others_mapSet hkeys hpid
  have hnodup : room.Participants.Pairwise (fun a b => a.1 ≠ b.1) :=
    List.Pairwise.imp (fun h => h.1) hok
  have hmem : ∀ e, e ∈ room'.Participants
      ↔ e = (req.PeerID, p) ∨ (e ∈ room.Participants ∧ e.1 ≠ req.PeerID) := by
    intro e
    rw [hr]
    exact mem_mapSet_iff hnodup
  refine ⟨_, ?_, rfl, ?_, hmem, hpid, hnick⟩
  · simp only [Handle, hjoin, hothers]
    rw [hr, hp]
    rfl
  · intro session method params
    simp only [List.mem_append, List.mem_map, List.mem_filter, List.mem_singleton,
      Effect.notify.injEq, decide_eq_true_eq, reduceCtorEq, or_false]
    constructor
    · rintro ⟨e, ⟨he, hne⟩, hsess, hmethod, hparams⟩
      exact ⟨hmethod.symm, hparams.symm, e, (hmem e).mpr (Or.inr ⟨he, hne⟩), hne, hsess⟩
    · rintro ⟨hmethod, hparams, e, he, hne, hsess⟩
      rcases (hmem e).mp he with heq | ⟨he', -⟩
      · rw [heq] at hne
        exact absurd rfl hne
      · exact ⟨e, ⟨he', hne⟩, hsess, hmethod.symm, hparams.symm⟩

theorem joinRoom_broadcast_witness :
    Reachable lobbyServer
      ∧ Handle lobbyServer 3 0
          (.joinRoom (.ok
            { RoomID := "r1", Password := "", Nickname := "carol", PeerID := "p-carol",
              Video := true, Audio := false }))
        = .ok ({ rooms :=
                  [("r1", { lobby with
                      Participants :=
                        [("p-alice", alice), ("p-bob", bob),
                          ("p-carol",
                            { PeerID := "p-carol", Nickname := "carol", Session := 3,
                              Video := false, Audio := false, IsCreator := false })] })] },
            [.notify 1 "newParticipant"
                (.participant
                  { peerId := "p-carol", nickname := "carol", video := false, audio := false,
                    isCreator := false }),
              .notify 2 "newParticipant"
                (.participant
                  { peerId := "p-carol", nickname := "carol", video := false, audio := false,
                    isCreator := false }),
              .reply 3
                (.snapshot "r1" false false false
                  [{ peerId := "p-alice", nickname := "alice", video := true, audio := true,
                      isCreator := true },
                    { peerId := "p-bob", nickname := "bob", video := false, audio := false,
                      isCreator := false }]
                  [])])
      ∧ ∃ effects,
        Handle lobbyServer 3 0
            (.joinRoom (.ok
              { RoomID := "r1", Password := "", Nickname := "carol", PeerID := "p-carol",
                Video := true, Audio := false }))
          = .ok ({ rooms :=
                    [("r1", { lobby with
                        Participants :=
                          [("p-alice", alice), ("p-bob", bob),
                            ("p-carol",
                              { PeerID := "p-carol", Nickname := "carol", Session := 3,
                                Video := false, Audio := false, IsCreator := false })] })] },
              effects)
        ∧ Effect.notify 1 "newParticipant"
            (.participant
              { peerId := "p-carol", nickname := "carol", video := false, audio := false,
                isCreator := false }) ∈ effects
        ∧ Effect.notify 2 "newParticipant"
            (.participant
              { peerId := "p-carol", nickname := "carol", video := false, audio := false,
                isCreator := false }) ∈ effects
        ∧ ∀ method params, Effect.notify 3 method params ∉ effects := by
  obtain ⟨effects, hrun, -, hnotify, -⟩ :=
    joinRoom_broadcast lobbyServer
      { rooms :=
          [("r1", { lobby with
              Participants :=
                [("p-alice", alice), ("p-bob", bob),
                  ("p-carol",
                    { PeerID := "p-carol", Nickname := "carol", Session := 3,
                      Video := false, Audio := false, IsCreator := false })] })] }
      3 0
      { RoomID := "r1", Password := "", Nickname := "carol", PeerID := "p-carol",
        Video := true, Audio := false }
      lobby
      { lobby with
        Participants :=
          [("p-alice", alice), ("p-bob", bob),
            ("p-carol",
              { PeerID := "p-carol", Nickname := "carol", Session := 3,
                Video := false, Audio := false, IsCreator := false })] }
      { PeerID := "p-carol", Nickname := "carol", Session := 3, Video := false,
        Audio := false, IsCreator := false }
      lobbyServer_reachable (by decide) (by decide)
  refine ⟨lobbyServer_reachable, by decide, effects, hrun, ?_, ?_, ?_⟩
  · exact (hnotify 1 _ _).mpr ⟨rfl, rfl, ("p-alice", alice), by decide, by decide, rfl⟩
  · exact (hnotify 2 _ _).mpr ⟨rfl, rfl, ("p-bob", bob), by decide, by decide, rfl⟩
  · intro method params hmem
    obtain ⟨-, -, e, he, hne, hsess⟩ := (hnotify 3 method params).mp hmem
    have hall : ∀ e ∈ ({ lobby with
        Participants :=
          [("p-alice", alice), ("p-bob", bob),
            ("p-carol",
              { PeerID := "p-carol", Nickname := "carol", Session := 3,
                Video := false, Audio := false, IsCreator := false })] } : Room).Participants,
        e.1 ≠ "p-carol" → e.2.Session ≠ 3 := by
      decide
    exact hall e he hne hsess

/-- C19. The scenario of the specification, run from the empty registry: room
"r1" is created with secret "", creator alice and video not allowed; alice
joins, is the creator and keeps the video she asked for; bob joins asking for
video and gets none; bob's request to enable video is rejected; bob's chat
message "hi" is notified to alice and to bob with nickname "bob"; alice allows
video; bob's request to enable video now succeeds and sets his flag. -/
theorem scenario :
    Handle NewServer 1 0
        (.createRoom (.ok
          { RoomID := "r1", Password := "", Nickname := "alice", FullControl := false,
            AllowVideo := false, AllowAudio := false }))
      = .ok ({ rooms := [("r1", emptyLobby)] }, [.reply 1 (.roomInfo "r1" false false false)])
    ∧ Handle { rooms := [("r1", emptyLobby)] } 1 1
        (.joinRoom (.ok
          { RoomID := "r1", Password := "", Nickname := "alice", PeerID := "p-alice",
            Video := true, Audio := true }))
      = .ok ({ rooms := [("r1", aliceLobby)] },
          [.reply 1 (.snapshot "r1" false false false [] [])])
    ∧ mapGet aliceLobby.Participants "p-alice" = some alice
    ∧ alice.IsCreator = true ∧ alice.Video = true
    ∧ Handle { rooms := [("r1", aliceLobby)] } 2 2
        (.joinRoom (.ok
          { RoomID := "r1", Password := "", Nickname := "bob", PeerID := "p-bob",
            Video := true, Audio := true }))
      = .ok (lobbyServer,
          [.notify 1 "newParticipant" (.participant (infoOf bob)),
            .reply 2 (.snapshot "r1" false false false [infoOf alice] [])])
    ∧ mapGet lobby.Participants "p-bob" = some bob
    ∧ bob.IsCreator = false ∧ bob.Video = false
    ∧ Handle lobbyServer 2 3
        (.toggleMedia (.ok
          { RoomID := "r1", PeerID := "p-bob", Kind := "video", Enabled := true }))
      = .ok (lobbyServer, [.replyWithError 2 (-32000) "Video is not allowed"])
    ∧ Handle lobbyServer 2 7
        (.sendMessage (.ok
          { RoomID := "r1", PeerID := "p-bob", Nickname := "bob", Message := "hi" }))
      = .ok ({ rooms := [("r1", chattyLobby)] },
          [.notify 1 "newMessage"
              (.message { Nickname := "bob", Message := "hi", Timestamp := 7 }),
            .notify 2 "newMessage"
              (.message { Nickname := "bob", Message := "hi", Timestamp := 7 }),
            .reply 2 (.text "Message sent")])
    ∧ Handle { rooms := [("r1", chattyLobby)] } 1 8
        (.updateSettings (.ok { RoomID := "r1", AllowVideo := true, AllowAudio := false }))
      = .ok ({ rooms := [("r1", videoLobby)] },
          [.notify 1 "roomSettingsUpdated" (.settings true false),
            .notify 2 "roomSettingsUpdated" (.settings true false),
            .reply 1 (.text "Settings updated")])
    ∧ Handle { rooms := [("r1", videoLobby)] } 2 9
        (.toggleMedia (.ok
          { RoomID := "r1", PeerID := "p-bob", Kind := "video", Enabled := true }))
      = .ok ({ rooms := [("r1", bobVideoLobby)] },
          [.notify 1 "mediaChanged" (.media "p-bob" "video" true),
            .notify 2 "mediaChanged" (.media "p-bob" "video" true),
            .reply 2 (.text "Media updated")])
    ∧ (mapGet bobVideoLobby.Participants "p-bob").map (fun p => p.Video) = some true := by
  refine ⟨by decide, by decide, by decide, by decide, by decide, by decide, by decide,
    by decide, by decide, by decide, by decide, by decide, by decide, by decide⟩

/-- After a successful join, a second join under the same nickname in the same
room is refused, whatever else it asks for. -/
theorem joinRoom_second_rejected {s s' : Server} {conn conn' : Nat} {req req' : JoinRequest}
    {room' : Room} {p : Participant} (h : joinRoom s conn req = .ok (s', room', p))
    (hid : req'.RoomID = req.RoomID) (hnick : req'.Nickname = req.Nickname) :
    joinRoom s' conn' req' = .error "incorrect password"
      ∨ joinRoom s' conn' req' = .error "nickname already in use" := by
  obtain ⟨room, -, -, -, hp, hr, hs⟩ := joinRoom_ok h
  have hget : mapGet s'.rooms req'.RoomID = some room' := by
    rw [hs, hid]
    exact mapGet_mapSet_self _ _ _
  have hmem : (req.PeerID, p) ∈ room'.Participants := by
    rw [hr]
    exact mapGet_mem (mapGet_mapSet_self _ _ _)
  have huse : nicknameInUse room'.Participants req'.Nickname = true := by
    simp only [nicknameInUse, List.any_eq_true]
    refine ⟨(req.PeerID, p), hmem, ?_⟩
    rw [hnick, hp]
    simp [joined]
  rw [joinRoom_of_get hget]
  by_cases hpw : room'.Password ≠ "" ∧ room'.Password ≠ req'.Password
  · exact Or.inl (if_pos hpw)
  · right
    rw [if_neg hpw, huse]
    rfl

theorem mapGet_mapSet_ne {α : Type} (m : List (String × α)) {k k' : String} (v : α)
    (h : k' ≠ k) : mapGet (mapSet m k v) k' = mapGet m k' := by
  induction m with
  | nil =>
    have h' : ¬ k = k' := fun e => h e.symm
    simp [mapSet, mapGet, h']
  | cons e m ih =>
    obtain ⟨k₀, v₀⟩ := e
    by_cases hk : k₀ = k
    · have h' : ¬ k = k' := fun e => h e.symm
      simp [mapSet, mapGet, hk, h']
    · by_cases hk' : k₀ = k'
      · subst hk'
        simp [mapSet, mapGet, hk]
      · simp [mapSet, mapGet, hk, hk', ih]

theorem keys_mapSet_of_get {α : Type} {m : List (String × α)} {k : String} {v v' : α}
    (h : mapGet m k = some v) : (mapSet m k v').map Prod.fst = m.map Prod.fst := by
  induction m with
  | nil => simp [mapGet] at h
  | cons e m ih =>
    obtain ⟨k₀, v₀⟩ := e
    by_cases hk : k₀ = k
    · simp [mapSet, hk]
    · simp only [mapGet, hk, if_false] at h
      simp [mapSet, hk, ih h]

/-- The state after a `toggleMedia` request answered "Media updated": the
participant found under the request's peer id is stored back, with the flag of
the request's kind assigned. -/
theorem toggleMedia_success {s s' : Server} {conn now : Nat} {params : ToggleMediaParams}
    {effects : List Effect}
    (h : Handle s conn now (.toggleMedia (.ok params)) = .ok (s', effects))
    (hok : Effect.reply conn (.text "Media updated") ∈ effects) :
    ∃ room p p', mapGet s.rooms params.RoomID = some room
      ∧ mapGet room.Participants params.PeerID = some p
      ∧ (params.Kind = "video" ∧ p' = { p with Video := params.Enabled }
        ∨ params.Kind = "audio" ∧ p' = { p with Audio := params.Enabled }
        ∨ params.Kind ≠ "video" ∧ params.Kind ≠ "audio" ∧ p' = p)
      ∧ s' = { rooms := mapSet s.rooms params.RoomID
                { room with Participants := mapSet room.Participants params.PeerID p' } } := by
  simp only [Handle] at h
  split at h
  · simp only [Except.ok.injEq, Prod.mk.injEq] at h
    rw [← h.2] at hok
    simp at hok
  · rename_i room hroom
    split at h
    · simp only [Except.ok.injEq, Prod.mk.injEq] at h
      rw [← h.2] at hok
      simp at hok
    · rename_i p hp
      split at h
      · rename_i hkind
        split at h
        · simp only [Except.ok.injEq, Prod.mk.injEq] at h
          rw [← h.2] at hok
          simp at hok
        · simp only [Except.ok.injEq, Prod.mk.injEq] at h
          exact ⟨room, p, _, hroom, hp, Or.inl ⟨hkind, rfl⟩, h.1.symm⟩
      · rename_i hkind
        split at h
        · rename_i hkind'
          split at h
          · simp only [Except.ok.injEq, Prod.mk.injEq] at h
            rw [← h.2] at hok
            simp at hok
          · simp only [Except.ok.injEq, Prod.mk.injEq] at h
            exact ⟨room, p, _, hroom, hp, Or.inr (Or.inl ⟨hkind', rfl⟩), h.1.symm⟩
        · rename_i hkind'
          simp only [Except.ok.injEq, Prod.mk.injEq] at h
          exact ⟨room, p, _, hroom, hp, Or.inr (Or.inr ⟨hkind, hkind', rfl⟩), h.1.symm⟩

/-- C21. A `toggleMedia` request answered "Media updated" changes only the named
flag of the named participant: afterwards the participant stored under the
request's peer id has its video flag (kind "video") or audio flag (kind
"audio") equal to `Enabled` and its other flag, nickname, creator flag, peer
id and session as before; every other participant of the room, the room's
settings and chat log, every other room and the sets of keys are as before;
and with any other kind the state is not changed at all. -/
theorem toggleMedia_frame (s s' : Server) (conn now : Nat) (params : ToggleMediaParams)
    (effects : List Effect)
    (h : Handle s conn now (.toggleMedia (.ok params)) = .ok (s', effects))
    (hok : Effect.reply conn (.text "Media updated") ∈ effects) :
    ∃ room room' p p',
      mapGet s.rooms params.RoomID = some room
      ∧ mapGet room.Participants params.PeerID = some p
      ∧ mapGet s'.rooms params.RoomID = some room'
      ∧ mapGet room'.Participants params.PeerID = some p'
      ∧ (params.Kind = "video" → p'.Video = params.Enabled ∧ p'.Audio = p.Audio)
      ∧ (params.Kind = "audio" → p'.Audio = params.Enabled ∧ p'.Video = p.Video)
      ∧ p'.Nickname = p.Nickname ∧ p'.IsCreator = p.IsCreator
      ∧ p'.PeerID = p.PeerID ∧ p'.Session = p.Session
      ∧ (∀ k, k ≠ params.PeerID →
          mapGet room'.Participants k = mapGet room.Participants k)
      ∧ room'.Participants.map Prod.fst = room.Participants.map Prod.fst
      ∧ room' = { room with Participants := room'.Participants }
      ∧ (∀ id, id ≠ params.RoomID → mapGet s'.rooms id = mapGet s.rooms id)
      ∧ s'.rooms.map Prod.fst = s.rooms.map Prod.fst
      ∧ (params.Kind ≠ "video" → params.Kind ≠ "audio" → s' = s) := by
  obtain ⟨room, p, p', hroom, hp, hcase, hs'⟩ := toggleMedia_success h hok
  have hvideo : params.Kind = "video" → p'.Video = params.Enabled ∧ p'.Audio = p.Audio := by
    intro hk
    rcases hcase with ⟨-, hp'⟩ | ⟨hk', -⟩ | ⟨hk', -, -⟩
    · rw [hp']
      exact ⟨rfl, rfl⟩
    · rw [hk] at hk'
      exact absurd hk' (by decide)
    · exact absurd hk hk'
  have haudio : params.Kind = "audio" → p'.Audio = params.Enabled ∧ p'.Video = p.Video := by
    intro hk
    rcases hcase with ⟨hk', -⟩ | ⟨-, hp'⟩ | ⟨-, hk', -⟩
    · rw [hk] at hk'
      exact absurd hk' (by decide)
    · rw [hp']
      exact ⟨rfl, rfl⟩
    · exact absurd hk hk'
  have hrest : p'.Nickname = p.Nickname ∧ p'.IsCreator = p.IsCreator
      ∧ p'.PeerID = p.PeerID ∧ p'.Session = p.Session := by
    rcases hcase with ⟨-, hp'⟩ | ⟨-, hp'⟩ | ⟨-, -, hp'⟩ <;> rw [hp'] <;> exact ⟨rfl, rfl, rfl, rfl⟩
  refine ⟨room, { room with Participants := mapSet room.Participants params.PeerID p' }, p, p',
    hroom, hp, ?_, mapGet_mapSet_self _ _ _, hvideo, haudio, hrest.1, hrest.2.1, hrest.2.2.1,
    hrest.2.2.2, ?_, keys_mapSet_of_get hp, rfl, ?_, ?_, ?_⟩
  · rw [hs']
    exact mapGet_mapSet_self _ _ _
  · intro k hk
    exact mapGet_mapSet_ne _ _ hk
  · intro id hid
    rw [hs']
    exact mapGet_mapSet_ne _ _ hid
  · rw [hs']
    exact keys_mapSet_of_get hroom
  · intro hv ha
    rcases hcase with ⟨hk, -⟩ | ⟨hk, -⟩ | ⟨-, -, hp'⟩
    · exact absurd hk hv
    · exact absurd hk ha
    · rw [hs', hp']
      have h₁ : mapSet room.Participants params.PeerID p = room.Participants :=
        mapSet_of_get hp
      rw [h₁]
      have h₂ : mapSet s.rooms params.RoomID room = s.rooms := mapSet_of_get hroom
      show ({ rooms := mapSet s.rooms params.RoomID room } : Server) = s
      rw [h₂]

theorem toggleMedia_frame_witness :
    Handle lobbyServer 1 0
        (.toggleMedia (.ok
          { RoomID := "r1", PeerID := "p-alice", Kind := "video", Enabled := false }))
      = .ok ({ rooms :=
                [("r1", { lobby with
                    Participants :=
                      [("p-alice", { alice with Video := false }), ("p-bob", bob)] })] },
          [.notify 1 "mediaChanged" (.media "p-alice" "video" false),
            .notify 2 "mediaChanged" (.media "p-alice" "video" false),
            .reply 1 (.text "Media updated")])
    ∧ ∃ room room' p p',
      mapGet lobbyServer.rooms "r1" = some room
      ∧ mapGet room.Participants "p-alice" = some p
      ∧ mapGet [("r1", { lobby with
            Participants :=
              [("p-alice", { alice with Video := false }), ("p-bob", bob)] })] "r1"
          = some room'
      ∧ mapGet room'.Participants "p-alice" = some p'
      ∧ p'.Video = false ∧ p'.Audio = p.Audio ∧ p'.Nickname = p.Nickname
      ∧ mapGet room'.Participants "p-bob" = mapGet room.Participants "p-bob" := by
  have hrun :
      Handle lobbyServer 1 0
          (.toggleMedia (.ok
            { RoomID := "r1", PeerID := "p-alice", Kind := "video", Enabled := false }))
        = .ok ({ rooms :=
                  [("r1", { lobby with
                      Participants :=
                        [("p-alice", { alice with Video := false }), ("p-bob", bob)] })] },
            [.notify 1 "mediaChanged" (.media "p-alice" "video" false),
              .notify 2 "mediaChanged" (.media "p-alice" "video" false),
              .reply 1 (.text "Media updated")]) := by
    decide
  obtain ⟨room, room', p, p', h₁, h₂, h₃, h₄, hv, -, hn, -, -, -, hother, -⟩ :=
    toggleMedia_frame lobbyServer _ 1 0 _ _ hrun (by decide)
  exact ⟨hrun, room, room', p, p', h₁, h₂, h₃, h₄, (hv rfl).1, (hv rfl).2, hn,
    hother "p-bob" (by decide)⟩

end SignalServer

namespace SfuServer

open SignalServer (mapGet mapSet mapDelete)

/-- C17. On a registered room `updatePermissionsHandler` answers
"permissions updated" exactly when the request's display name is the room's
creator. Then the room's `AllowVideo` and `AllowAudio` are the requested values
and its participants, secret, creator and full-control flag are as before;
otherwise the answer is 401 Unauthorized and the registry, hence the room with
all its fields, is unchanged. -/
theorem updatePermissions_creator_only (rooms : List (String × Room))
    (req : UpdatePermissionsRequest) (room : Room)
    (hroom : mapGet rooms req.RoomID = some room) :
    ((updatePermissionsHandler rooms (.ok req)).2 = .status StatusOK "permissions updated"
        ↔ req.DisplayName = room.Creator)
      ∧ (req.DisplayName = room.Creator →
        ∃ room', mapGet (updatePermissionsHandler rooms (.ok req)).1 req.RoomID = some room'
          ∧ room'.AllowVideo = req.AllowVideo ∧ room'.AllowAudio = req.AllowAudio
          ∧ room'.Participants = room.Participants ∧ room'.Password = room.Password
          ∧ room'.Creator = room.Creator ∧ room'.FullControl = room.FullControl
          ∧ room'.ID = room.ID)
      ∧ (req.DisplayName ≠ room.Creator →
        updatePermissionsHandler rooms (.ok req)
          = (rooms, .failure StatusUnauthorized "only room creator can update permissions")) := by
  refine ⟨?_, ?_, ?_⟩
  · by_cases h : room.Creator = req.DisplayName
    · simp [updatePermissionsHandler, hroom, h]
    · have h' : ¬ req.DisplayName = room.Creator := fun e => h e.symm
      simp [updatePermissionsHandler, hroom, h, h']
  · intro h
    have h' : room.Creator = req.DisplayName := h.symm
    refine ⟨{ room with AllowVideo := req.AllowVideo, AllowAudio := req.AllowAudio },
      ?_, rfl, rfl, rfl, rfl, rfl, rfl, rfl⟩
    simp only [updatePermissionsHandler, hroom, h', ne_eq, not_true_eq_false, if_false]
    exact SignalServer.mapGet_mapSet_self _ _ _
  · intro h
    have h' : room.Creator ≠ req.DisplayName := fun e => h e.symm
    simp [updatePermissionsHandler, hroom, h']

theorem updatePermissions_creator_only_witness :
    updatePermissionsHandler [("r1", lobby)]
        (.ok { RoomID := "r1", DisplayName := "bob", AllowVideo := true, AllowAudio := true })
      = ([("r1", lobby)],
          .failure StatusUnauthorized "only room creator can update permissions")
    ∧ mapGet [("r1", lobby)] "r1" = some lobby :=
  ⟨(updatePermissions_creator_only [("r1", lobby)]
      { RoomID := "r1", DisplayName := "bob", AllowVideo := true, AllowAudio := true } lobby
      (by decide)).2.2 (by decide),
    by decide⟩

/-- C18 (code defect). In `src/server`, once the request of connection 1 to join
room "r1" as alice is handled, alice is in the room with session 1. This is
the state a connection closed after its join leaves behind, since the
disconnection is no request and nothing else removes a participant; the
registry is emptied only when a `leaveRoom` request for alice is handled. In
`src/go` the deferred function of `wsHandler` removes the participant when the
connection closes, but the room, now empty, stays registered. -/
theorem disconnect_without_cleanup :
    SignalServer.Handle { rooms := [("r1", SignalServer.emptyLobby)] } 1 0
        (.joinRoom (.ok
          { RoomID := "r1", Password := "", Nickname := "alice", PeerID := "p-alice",
            Video := true, Audio := true }))
      = .ok ({ rooms := [("r1", SignalServer.aliceLobby)] },
          [.reply 1 (.snapshot "r1" false false false [] [])])
    ∧ mapGet SignalServer.aliceLobby.Participants "p-alice" = some SignalServer.alice
    ∧ SignalServer.alice.Session = 1
    ∧ SignalServer.Handle { rooms := [("r1", SignalServer.aliceLobby)] } 1 1
        (.leaveRoom (.ok { RoomID := "r1", PeerID := "p-alice" }))
      = .ok ({ rooms := [] }, [.reply 1 (.text "Left room")])
    ∧ wsRun "r1" "bob" 0 { rooms := [("r1", lobby)], admitted := [], serving := [] }
        [.check 1, .insert 1]
      = { rooms := [("r1", { lobby with Participants := [("bob", bob 1)] })], admitted := [],
          serving := [1] }
    ∧ wsRun "r1" "bob" 0 { rooms := [("r1", lobby)], admitted := [], serving := [] }
        [.check 1, .insert 1, .close 1]
      = { rooms := [("r1", lobby)], admitted := [], serving := [] }
    ∧ lobby.Participants = [] := by
  refine ⟨by decide, by decide, by decide, by decide, by decide, by decide, by decide⟩

/-- C20 (code defect). Two calls of `wsHandler` ask for the display name "bob"
in room "r1". When both make their check before either stores its
participant, both pass and both go on to serve their connection, while the
room holds a single entry "bob", that of the second call; when the first
connection closes, its deferred function deletes that entry although the
second call is still serving. When the second check follows the first
insertion, the second call is refused. -/
theorem wsHandler_race :
    wsRun "r1" "bob" 0 { rooms := [("r1", lobby)], admitted := [], serving := [] }
        [.check 1, .check 2]
      = { rooms := [("r1", lobby)], admitted := [1, 2], serving := [] }
    ∧ wsRun "r1" "bob" 0 { rooms := [("r1", lobby)], admitted := [], serving := [] }
        [.check 1, .check 2, .insert 1, .insert 2]
      = { rooms := [("r1", { lobby with Participants := [("bob", bob 2)] })], admitted := [],
          serving := [1, 2] }
    ∧ wsRun "r1" "bob" 0 { rooms := [("r1", lobby)], admitted := [], serving := [] }
        [.check 1, .check 2, .insert 1, .insert 2, .close 1]
      = { rooms := [("r1", lobby)], admitted := [], serving := [2] }
    ∧ wsRun "r1" "bob" 0 { rooms := [("r1", lobby)], admitted := [], serving := [] }
        [.check 1, .insert 1, .check 2, .insert 2]
      = { rooms := [("r1", { lobby with Participants := [("bob", bob 1)] })], admitted := [],
          serving := [1] } := by
  refine ⟨by decide, by decide, by decide, by decide⟩

end SfuServer
